import Mathlib

/-!
Verification of the circuit-forge event-sourced circuit editor.

Shallow embedding of the backend's data model (`app/models/circuit.py`,
`app/models/events.py`), event repository (`app/repositories/event_repository.py`
together with the unique index declared in `app/core/database.py`), mutation
service (`app/services/circuit_service.py`), simulation validation
(`app/services/simulation_service.py`), discrete-event simulation engine
(`app/services/simulation_engine.py`) and the websocket simulation-start path
(`app/websocket/handler.py`).

Machine timestamps (`datetime.utcnow()`) are modelled as an explicit `Nat`
clock argument threaded through every operation; 2D coordinates are modelled
as integers (the code stores and compares positions, it never computes with
them).
-/

namespace CircuitForge

/-- 2D position (`Position` in `app/models/circuit.py`). Coordinates are
floats in the source but are only stored and compared, never computed with,
so they are modelled as integers. -/
structure Position where
  x : Int
  y : Int
deriving DecidableEq

/-- Pin direction (`PinType`). -/
inductive PinType where
  | input
  | output
deriving DecidableEq

/-- Component pin (`Pin`). -/
structure Pin where
  id : String
  name : String
  type : PinType
  position : Position
deriving DecidableEq

/-- Free-form component property map. The code only ever reads the keys
`state`, `pressed` and `phase`, so the map is modelled by those three
optional entries (`None` models an absent key). -/
structure Props where
  state : Option Bool
  pressed : Option Bool
  phase : Option Nat
deriving DecidableEq

/-- The empty property dict. -/
def Props.empty : Props := ⟨none, none, none⟩

/-- A placed component (`CircuitComponent`). The component type is modelled
by its enumeration value string (the source dispatches on `comp.type.value`
strings throughout). Rotation is kept as its integer value. -/
structure CircuitComponent where
  id : String
  type : String
  position : Position
  rotation : Nat
  properties : Props
  pins : List Pin
deriving DecidableEq

/-- Wire between two pins (`Wire`). -/
structure Wire where
  id : String
  fromComponentId : String
  fromPinId : String
  toComponentId : String
  toPinId : String
  waypoints : List Position
deriving DecidableEq

/-- Payload of an annotation (`StrokeData` / `TextData`). -/
inductive AnnotData where
  | stroke (points : List Position) (color : String) (width : Nat)
  | text (content : String) (position : Position) (fontSize : Int)
deriving DecidableEq

/-- An annotation (the source's `Annotation` model). -/
structure Annot where
  id : String
  type : String
  userId : String
  data : AnnotData
deriving DecidableEq

/-- The schema version constant (`SCHEMA_VERSION`). -/
def schemaVersionConst : String := "1.0.0"

/-- Complete circuit state (`CircuitState`). `updatedAt` is the
wall-clock timestamp the code writes with `datetime.utcnow()`. -/
structure CircuitState where
  sessionId : String
  version : Nat
  schemaVersion : String
  components : List CircuitComponent
  wires : List Wire
  annotations : List Annot
  updatedAt : Nat
deriving DecidableEq

/-- `CircuitState.create_empty`. -/
def emptyState (sessionId : String) (now : Nat) : CircuitState :=
  { sessionId := sessionId
    version := 0
    schemaVersion := schemaVersionConst
    components := []
    wires := []
    annotations := []
    updatedAt := now }

/-- Typed event payload (the payload models of `app/models/events.py`). -/
inductive EventPayload where
  | componentAdded (component : CircuitComponent)
  | componentMoved (componentId : String) (position : Position)
  | componentDeleted (componentId : String)
  | wireAdded (wire : Wire)
  | wireDeleted (wireId : String)
  | annotAdded (annot : Annot)
  | annotDeleted (annotId : String)
deriving DecidableEq

/-- A typed circuit event (the `CircuitEvent` union of `app/models/events.py`:
common `BaseEvent` fields plus a variant payload). -/
structure CircuitEvent where
  sessionCode : String
  version : Nat
  userId : String
  timestamp : Nat
  payload : EventPayload
deriving DecidableEq

/-- The stored shape of an event payload: a dict whose keys may each be
absent (`payload.get(...)` returns `None`, `payload[...]` raises). -/
structure PayloadDoc where
  component : Option CircuitComponent
  componentId : Option String
  position : Option Position
  wire : Option Wire
  wireId : Option String
  annot : Option Annot
  annotId : Option String
deriving DecidableEq

/-- The empty payload dict. -/
def PayloadDoc.empty : PayloadDoc := ⟨none, none, none, none, none, none, none⟩

/-- A stored event document, as returned by the Mongo queries of
`EventRepository` (a dict with a `type` tag string). -/
structure EventDoc where
  sessionCode : String
  version : Nat
  userId : String
  timestamp : Nat
  type : String
  payload : PayloadDoc
deriving DecidableEq

/-- `model_dump` of a typed event into its stored document. -/
def dump (e : CircuitEvent) : EventDoc :=
  match e.payload with
  | .componentAdded c =>
      ⟨e.sessionCode, e.version, e.userId, e.timestamp, "COMPONENT_ADDED",
        { PayloadDoc.empty with component := some c }⟩
  | .componentMoved cid pos =>
      ⟨e.sessionCode, e.version, e.userId, e.timestamp, "COMPONENT_MOVED",
        { PayloadDoc.empty with componentId := some cid, position := some pos }⟩
  | .componentDeleted cid =>
      ⟨e.sessionCode, e.version, e.userId, e.timestamp, "COMPONENT_DELETED",
        { PayloadDoc.empty with componentId := some cid }⟩
  | .wireAdded w =>
      ⟨e.sessionCode, e.version, e.userId, e.timestamp, "WIRE_ADDED",
        { PayloadDoc.empty with wire := some w }⟩
  | .wireDeleted wid =>
      ⟨e.sessionCode, e.version, e.userId, e.timestamp, "WIRE_DELETED",
        { PayloadDoc.empty with wireId := some wid }⟩
  | .annotAdded a =>
      ⟨e.sessionCode, e.version, e.userId, e.timestamp, "ANNOTATION_ADDED",
        { PayloadDoc.empty with annot := some a }⟩
  | .annotDeleted aid =>
      ⟨e.sessionCode, e.version, e.userId, e.timestamp, "ANNOTATION_DELETED",
        { PayloadDoc.empty with annotId := some aid }⟩

/-- Application-level errors (the exception hierarchy of
`app/exceptions/base.py`, plus the duplicate-key error of the Mongo unique
index and the `KeyError` a raw dict access can raise). -/
inductive SvcError where
  | validation (message : String) (code : String)
  | notFound (resource : String) (ident : String)
  | dupKey
  | keyError (msg : String)
deriving DecidableEq

/-- First-match in-place position update: the
`for comp in state.components: if comp.id == comp_id: comp.position = position; break`
loop of `CircuitService._apply_event`. A `none` component id (absent payload
key) matches nothing. -/
def moveFirst (l : List CircuitComponent) (cidOpt : Option String)
    (pos : Position) : List CircuitComponent :=
  match l with
  | [] => []
  | c :: rest =>
      if some c.id = cidOpt then { c with position := pos } :: rest
      else c :: moveFirst rest cidOpt pos

/-- `CircuitService._apply_event`: apply a single stored event document to a
circuit state. Required dict accesses (`payload["component"]` etc.) raise
`KeyError` when absent; `payload.get(...)` accesses yield `None`, which then
matches no id. Every branch (and the fall-through for an unrecognized type)
ends by stamping `updated_at` with the current wall clock `now`. -/
def applyEvent (state : CircuitState) (now : Nat) (d : EventDoc) :
    Except SvcError CircuitState :=
  if d.type = "COMPONENT_ADDED" then
    match d.payload.component with
    | none => .error (.keyError "component")
    | some c =>
        .ok { state with components := state.components ++ [c],
                         version := d.version, updatedAt := now }
  else if d.type = "COMPONENT_MOVED" then
    match d.payload.position with
    | none => .error (.keyError "position")
    | some pos =>
        .ok { state with
                components := moveFirst state.components d.payload.componentId pos,
                version := d.version, updatedAt := now }
  else if d.type = "COMPONENT_DELETED" then
    .ok { state with
            components :=
              state.components.filter (fun c => !(decide (some c.id = d.payload.componentId))),
            version := d.version, updatedAt := now }
  else if d.type = "WIRE_ADDED" then
    match d.payload.wire with
    | none => .error (.keyError "wire")
    | some w =>
        .ok { state with wires := state.wires ++ [w],
                         version := d.version, updatedAt := now }
  else if d.type = "WIRE_DELETED" then
    .ok { state with
            wires := state.wires.filter (fun w => !(decide (some w.id = d.payload.wireId))),
            version := d.version, updatedAt := now }
  else if d.type = "ANNOTATION_ADDED" then
    match d.payload.annot with
    | none => .error (.keyError "annotation")
    | some a =>
        .ok { state with annotations := state.annotations ++ [a],
                         version := d.version, updatedAt := now }
  else if d.type = "ANNOTATION_DELETED" then
    .ok { state with
            annotations :=
              state.annotations.filter (fun a => !(decide (some a.id = d.payload.annotId))),
            version := d.version, updatedAt := now }
  else
    .ok { state with updatedAt := now }

/-- The event-application fold of `CircuitService.get_circuit_state`
(`for event_data in events: state = self._apply_event(state, event_data)`);
an exception aborts the fold. -/
def applyEvents (now : Nat) (state : CircuitState) :
    List EventDoc → Except SvcError CircuitState
  | [] => .ok state
  | d :: rest =>
      match applyEvent state now d with
      | .error e => .error e
      | .ok s1 => applyEvents now s1 rest

/-- A stored snapshot document (`EventRepository.save_snapshot`). -/
structure Snapshot where
  sessionCode : String
  version : Nat
  state : CircuitState
  createdAt : Nat
deriving DecidableEq

/-- The durable store: the `events` and `snapshots` collections, each in
insertion order. -/
structure Store where
  events : List EventDoc
  snapshots : List Snapshot
deriving DecidableEq

/-- The empty database. -/
def Store.empty : Store := ⟨[], []⟩

/-- Insertion step of the version sort. -/
def insertByVersion (e : EventDoc) : List EventDoc → List EventDoc
  | [] => [e]
  | x :: xs => if e.version < x.version then e :: x :: xs else x :: insertByVersion e xs

/-- Ascending sort by `version` (the `.sort("version", 1)` of the Mongo
queries; versions are unique per session, so any correct sort agrees). -/
def sortByVersion : List EventDoc → List EventDoc
  | [] => []
  | x :: xs => insertByVersion x (sortByVersion xs)

/-- All stored events of one session, in insertion order. -/
def sessionEvents (store : Store) (s : String) : List EventDoc :=
  store.events.filter (fun e => e.sessionCode == s)

/-- `EventRepository.get_events_since_version`: events of the session with
version strictly greater than `v`, ascending by version. -/
def eventsSinceVersion (store : Store) (s : String) (v : Nat) : List EventDoc :=
  sortByVersion ((sessionEvents store s).filter (fun e => decide (v < e.version)))

/-- `EventRepository.get_all_events`. -/
def getAllEvents (store : Store) (s : String) : List EventDoc :=
  eventsSinceVersion store s 0

/-- `EventRepository.get_latest_version`: the maximal stored version of the
session (`.sort("version", -1).limit(1)`), `0` when the session has none. -/
def latestVersion (store : Store) (s : String) : Nat :=
  (sessionEvents store s).foldl (fun acc e => max acc e.version) 0

/-- `EventRepository.append_event` composed with the unique index on
`(sessionCode, version)` created in `app/core/database.py`: the insert fails
with a duplicate-key error exactly when an event with the same session and
version already exists; there is no other check. -/
def appendEvent (store : Store) (d : EventDoc) : Except SvcError Store :=
  if store.events.any
      (fun e => e.sessionCode == d.sessionCode && e.version == d.version) then
    .error .dupKey
  else
    .ok { store with events := store.events ++ [d] }

/-- `EventRepository.save_snapshot`. -/
def saveSnapshot (store : Store) (s : String) (v : Nat) (state : CircuitState)
    (now : Nat) : Store :=
  { store with snapshots := store.snapshots ++ [⟨s, v, state, now⟩] }

/-- All stored snapshots of one session, in insertion order. -/
def sessionSnapshots (store : Store) (s : String) : List Snapshot :=
  store.snapshots.filter (fun sn => sn.sessionCode == s)

/-- `EventRepository.get_latest_snapshot`: the session snapshot with the
greatest version (`.sort("version", -1).limit(1)`). -/
def latestSnapshot (store : Store) (s : String) : Option Snapshot :=
  (sessionSnapshots store s).foldl
    (fun acc sn =>
      match acc with
      | none => some sn
      | some a => if a.version < sn.version then some sn else some a)
    none

/-- `CircuitService.get_circuit_state`: start from the latest snapshot (or
the empty state) and fold every later event of the session, stamping each
fold step with the reconstruction-time clock `now`. -/
def getCircuitState (store : Store) (s : String) (now : Nat) :
    Except SvcError CircuitState :=
  match latestSnapshot store s with
  | some sn => applyEvents now sn.state (eventsSinceVersion store s sn.version)
  | none => applyEvents now (emptyState s now) (eventsSinceVersion store s 0)

/-- `SNAPSHOT_INTERVAL`. -/
def snapshotInterval : Nat := 50

/-- In-memory service state: the database plus the per-(session, user)
undo/redo stacks of `CircuitService` (`defaultdict`: an absent key reads as
an empty stack). -/
structure ServiceState where
  store : Store
  undoStacks : List ((String × String) × List CircuitEvent)
  redoStacks : List ((String × String) × List CircuitEvent)
deriving DecidableEq

/-- A fresh service over an empty database. -/
def initialService : ServiceState := ⟨Store.empty, [], []⟩

/-- Read a per-(session, user) stack; an untouched key is an empty list. -/
def getStack (m : List ((String × String) × List CircuitEvent)) (s u : String) :
    List CircuitEvent :=
  match m.find? (fun kv => kv.1.1 == s && kv.1.2 == u) with
  | some kv => kv.2
  | none => []

/-- Write a per-(session, user) stack in place (append the key on first
touch, mirroring `defaultdict` insertion order). -/
def setStack (m : List ((String × String) × List CircuitEvent)) (s u : String)
    (l : List CircuitEvent) : List ((String × String) × List CircuitEvent) :=
  match m with
  | [] => [((s, u), l)]
  | kv :: rest =>
      if kv.1.1 == s && kv.1.2 == u then ((s, u), l) :: rest
      else kv :: setStack rest s u l

/-- `CircuitService._push_undo`: append, then discard the oldest entry when
the stack exceeds 50. -/
def pushUndo (s u : String) (ev : CircuitEvent) (st : ServiceState) : ServiceState :=
  let l := getStack st.undoStacks s u ++ [ev]
  let l2 := if 50 < l.length then l.drop 1 else l
  { st with undoStacks := setStack st.undoStacks s u l2 }

/-- `CircuitService._clear_redo`. -/
def clearRedo (s u : String) (st : ServiceState) : ServiceState :=
  { st with redoStacks := setStack st.redoStacks s u [] }

/-- `CircuitService._get_next_version`. -/
def getNextVersion (store : Store) (s : String) : Nat :=
  latestVersion store s + 1

/-- `CircuitService._maybe_create_snapshot`: on every 50th version,
reconstruct the current state and save it as a snapshot. -/
def maybeCreateSnapshot (now : Nat) (s : String) (v : Nat) (st : ServiceState) :
    Except SvcError ServiceState :=
  if v % snapshotInterval = 0 then
    match getCircuitState st.store s now with
    | .error e => .error e
    | .ok state => .ok { st with store := saveSnapshot st.store s v state now }
  else .ok st

/-- The duplicate check of the first loop in
`_validate_wire_connection`: an existing wire with the identical
`(from, to)` endpoint pair. -/
def dupWirePred (w ew : Wire) : Bool :=
  ew.fromComponentId == w.fromComponentId && ew.fromPinId == w.fromPinId &&
    ew.toComponentId == w.toComponentId && ew.toPinId == w.toPinId

/-- The multiple-driver check of the second loop: an existing wire into the
same target pin. -/
def sameTargetPred (w ew : Wire) : Bool :=
  ew.toComponentId == w.toComponentId && ew.toPinId == w.toPinId

/-- `CircuitService._validate_wire_connection`: the source's check sequence,
returning the first raised `ValidationException` (or nothing). -/
def validateWireConnection (state : CircuitState) (w : Wire) : Option SvcError :=
  if state.wires.any (dupWirePred w) then
    some (.validation "This wire connection already exists" "DUPLICATE_WIRE")
  else if state.wires.any (sameTargetPred w) then
    some (.validation "This input pin already has a connection" "INPUT_ALREADY_CONNECTED")
  else
    match state.components.find? (fun c => c.id == w.fromComponentId) with
    | none => some (.validation "Source component not found" "INVALID_WIRE")
    | some fromComp =>
      match fromComp.pins.find? (fun p => p.id == w.fromPinId) with
      | none => some (.validation "Source pin not found" "INVALID_WIRE")
      | some fromPin =>
        match state.components.find? (fun c => c.id == w.toComponentId) with
        | none => some (.validation "Target component not found" "INVALID_WIRE")
        | some toComp =>
          match toComp.pins.find? (fun p => p.id == w.toPinId) with
          | none => some (.validation "Target pin not found" "INVALID_WIRE")
          | some toPin =>
            if fromPin.type ≠ PinType.output then
              some (.validation "Wire must start from an output pin" "INVALID_WIRE_DIRECTION")
            else if toPin.type ≠ PinType.input then
              some (.validation "Wire must end at an input pin" "INVALID_WIRE_DIRECTION")
            else none

/-- `CircuitService.add_component`. Every operation returns the Python
result (or the raised exception) together with the service state as left
behind, including partial mutations made before a raise. -/
def addComponent (now : Nat) (s u : String) (comp : CircuitComponent)
    (st : ServiceState) :
    Except SvcError (CircuitEvent × CircuitState) × ServiceState :=
  let v := getNextVersion st.store s
  let ev : CircuitEvent := ⟨s, v, u, now, .componentAdded comp⟩
  match appendEvent st.store (dump ev) with
  | .error e => (.error e, st)
  | .ok store1 =>
    let st1 := clearRedo s u (pushUndo s u ev { st with store := store1 })
    match maybeCreateSnapshot now s v st1 with
    | .error e => (.error e, st1)
    | .ok st2 =>
      match getCircuitState st2.store s now with
      | .error e => (.error e, st2)
      | .ok state => (.ok (ev, state), st2)

/-- `CircuitService.move_component`. -/
def moveComponent (now : Nat) (s u : String) (cid : String) (pos : Position)
    (st : ServiceState) :
    Except SvcError (CircuitEvent × CircuitState) × ServiceState :=
  match getCircuitState st.store s now with
  | .error e => (.error e, st)
  | .ok state =>
    if state.components.any (fun c => c.id == cid) then
      let v := getNextVersion st.store s
      let ev : CircuitEvent := ⟨s, v, u, now, .componentMoved cid pos⟩
      match appendEvent st.store (dump ev) with
      | .error e => (.error e, st)
      | .ok store1 =>
        let st1 := clearRedo s u (pushUndo s u ev { st with store := store1 })
        match getCircuitState st1.store s now with
        | .error e => (.error e, st1)
        | .ok state2 => (.ok (ev, state2), st1)
    else (.error (.notFound "Component" cid), st)

/-- The wire-deletion loop of `CircuitService.delete_component`: one
`WireDeleted` event per connected wire, each individually versioned and
appended before the next version is read. -/
def deleteWiresLoop (now : Nat) (s u : String) :
    List Wire → Store → Except SvcError (List CircuitEvent) × Store
  | [], store => (.ok [], store)
  | w :: rest, store =>
      let v := getNextVersion store s
      let ev : CircuitEvent := ⟨s, v, u, now, .wireDeleted w.id⟩
      match appendEvent store (dump ev) with
      | .error e => (.error e, store)
      | .ok store1 =>
        match deleteWiresLoop now s u rest store1 with
        | (.error e, store2) => (.error e, store2)
        | (.ok evs, store2) => (.ok (ev :: evs), store2)

/-- `CircuitService.delete_component`: cascade-delete every wire touching
the component, then the component itself; push the whole group onto the
user's undo stack. -/
def deleteComponent (now : Nat) (s u : String) (cid : String)
    (st : ServiceState) :
    Except SvcError (List CircuitEvent × CircuitState) × ServiceState :=
  match getCircuitState st.store s now with
  | .error e => (.error e, st)
  | .ok state =>
    if state.components.any (fun c => c.id == cid) then
      let connected := state.wires.filter
        (fun w => w.fromComponentId == cid || w.toComponentId == cid)
      match deleteWiresLoop now s u connected st.store with
      | (.error e, store1) => (.error e, { st with store := store1 })
      | (.ok wireEvs, store1) =>
        let v := getNextVersion store1 s
        let compEv : CircuitEvent := ⟨s, v, u, now, .componentDeleted cid⟩
        match appendEvent store1 (dump compEv) with
        | .error e => (.error e, { st with store := store1 })
        | .ok store2 =>
          let evs := wireEvs ++ [compEv]
          let st1 := { st with store := store2 }
          let st2 := clearRedo s u (evs.foldl (fun acc ev => pushUndo s u ev acc) st1)
          match getCircuitState st2.store s now with
          | .error e => (.error e, st2)
          | .ok state2 => (.ok (evs, state2), st2)
    else (.error (.notFound "Component" cid), st)

/-- `CircuitService.add_wire`: reconstruct, validate, append. A validation
failure raises before any version is assigned or event appended. -/
def addWire (now : Nat) (s u : String) (w : Wire) (st : ServiceState) :
    Except SvcError (CircuitEvent × CircuitState) × ServiceState :=
  match getCircuitState st.store s now with
  | .error e => (.error e, st)
  | .ok state =>
    match validateWireConnection state w with
    | some err => (.error err, st)
    | none =>
      let v := getNextVersion st.store s
      let ev : CircuitEvent := ⟨s, v, u, now, .wireAdded w⟩
      match appendEvent st.store (dump ev) with
      | .error e => (.error e, st)
      | .ok store1 =>
        let st1 := clearRedo s u (pushUndo s u ev { st with store := store1 })
        match getCircuitState st1.store s now with
        | .error e => (.error e, st1)
        | .ok state2 => (.ok (ev, state2), st1)

/-- `CircuitService.delete_wire`. -/
def deleteWire (now : Nat) (s u : String) (wid : String) (st : ServiceState) :
    Except SvcError (CircuitEvent × CircuitState) × ServiceState :=
  match getCircuitState st.store s now with
  | .error e => (.error e, st)
  | .ok state =>
    if state.wires.any (fun w => w.id == wid) then
      let v := getNextVersion st.store s
      let ev : CircuitEvent := ⟨s, v, u, now, .wireDeleted wid⟩
      match appendEvent st.store (dump ev) with
      | .error e => (.error e, st)
      | .ok store1 =>
        let st1 := clearRedo s u (pushUndo s u ev { st with store := store1 })
        match getCircuitState st1.store s now with
        | .error e => (.error e, st1)
        | .ok state2 => (.ok (ev, state2), st1)
    else (.error (.notFound "Wire" wid), st)

/-- `CircuitService.add_annotation`. -/
def addAnnot (now : Nat) (s u : String) (a : Annot) (st : ServiceState) :
    Except SvcError (CircuitEvent × CircuitState) × ServiceState :=
  let v := getNextVersion st.store s
  let ev : CircuitEvent := ⟨s, v, u, now, .annotAdded a⟩
  match appendEvent st.store (dump ev) with
  | .error e => (.error e, st)
  | .ok store1 =>
    let st1 := clearRedo s u (pushUndo s u ev { st with store := store1 })
    match getCircuitState st1.store s now with
    | .error e => (.error e, st1)
    | .ok state2 => (.ok (ev, state2), st1)

/-- `CircuitService.delete_annotation`. -/
def deleteAnnot (now : Nat) (s u : String) (aid : String) (st : ServiceState) :
    Except SvcError (CircuitEvent × CircuitState) × ServiceState :=
  match getCircuitState st.store s now with
  | .error e => (.error e, st)
  | .ok state =>
    if state.annotations.any (fun a => a.id == aid) then
      let v := getNextVersion st.store s
      let ev : CircuitEvent := ⟨s, v, u, now, .annotDeleted aid⟩
      match appendEvent st.store (dump ev) with
      | .error e => (.error e, st)
      | .ok store1 =>
        let st1 := clearRedo s u (pushUndo s u ev { st with store := store1 })
        match getCircuitState st1.store s now with
        | .error e => (.error e, st1)
        | .ok state2 => (.ok (ev, state2), st1)
    else (.error (.notFound "Annotation" aid), st)

/-- First `COMPONENT_ADDED` document of the scan in
`CircuitService._create_inverse_event` whose component id matches. -/
def findFirstAddedComponent (cid : String) : List EventDoc → Option CircuitComponent
  | [] => none
  | d :: rest =>
      if d.type = "COMPONENT_ADDED" then
        match d.payload.component with
        | some c => if c.id = cid then some c else findFirstAddedComponent cid rest
        | none => findFirstAddedComponent cid rest
      else findFirstAddedComponent cid rest

/-- First `WIRE_ADDED` document whose wire id matches. -/
def findFirstAddedWire (wid : String) : List EventDoc → Option Wire
  | [] => none
  | d :: rest =>
      if d.type = "WIRE_ADDED" then
        match d.payload.wire with
        | some w => if w.id = wid then some w else findFirstAddedWire wid rest
        | none => findFirstAddedWire wid rest
      else findFirstAddedWire wid rest

/-- First `ANNOTATION_ADDED` document whose annotation id matches. -/
def findFirstAddedAnnot (aid : String) : List EventDoc → Option Annot
  | [] => none
  | d :: rest =>
      if d.type = "ANNOTATION_ADDED" then
        match d.payload.annot with
        | some a => if a.id = aid then some a else findFirstAddedAnnot aid rest
        | none => findFirstAddedAnnot aid rest
      else findFirstAddedAnnot aid rest

/-- The previous-position scan of the `ComponentMovedEvent` branch of
`CircuitService._create_inverse_event`: walk the full history in ascending
version order, remembering the position of every `Added`/`Moved` document
for the component; the last one seen wins. A matching `Moved` document
without a `position` key would raise `KeyError`. -/
def scanPrevPosition (cid : String) :
    List EventDoc → Option Position → Except SvcError (Option Position)
  | [], prev => .ok prev
  | d :: rest, prev =>
      if d.type = "COMPONENT_ADDED" then
        match d.payload.component with
        | some c =>
            scanPrevPosition cid rest (if c.id = cid then some c.position else prev)
        | none => scanPrevPosition cid rest prev
      else if d.type = "COMPONENT_MOVED" then
        if d.payload.componentId = some cid then
          match d.payload.position with
          | some p => scanPrevPosition cid rest (some p)
          | none => .error (.keyError "position")
        else scanPrevPosition cid rest prev
      else scanPrevPosition cid rest prev

/-- `CircuitService._create_inverse_event`. The `state` argument is accepted
and ignored exactly as in the source. Returns `none` when no valid inverse
can be determined. -/
def createInverseEvent (store : Store) (s u : String) (now : Nat)
    (event : CircuitEvent) (_state : CircuitState) :
    Except SvcError (Option CircuitEvent) :=
  let v := getNextVersion store s
  match event.payload with
  | .componentAdded c => .ok (some ⟨s, v, u, now, .componentDeleted c.id⟩)
  | .componentDeleted cid =>
      match findFirstAddedComponent cid (getAllEvents store s) with
      | some c => .ok (some ⟨s, v, u, now, .componentAdded c⟩)
      | none => .ok none
  | .componentMoved cid _ =>
      match scanPrevPosition cid (getAllEvents store s) none with
      | .error e => .error e
      | .ok (some p) => .ok (some ⟨s, v, u, now, .componentMoved cid p⟩)
      | .ok none => .ok none
  | .wireAdded w => .ok (some ⟨s, v, u, now, .wireDeleted w.id⟩)
  | .wireDeleted wid =>
      match findFirstAddedWire wid (getAllEvents store s) with
      | some w => .ok (some ⟨s, v, u, now, .wireAdded w⟩)
      | none => .ok none
  | .annotAdded a => .ok (some ⟨s, v, u, now, .annotDeleted a.id⟩)
  | .annotDeleted aid =>
      match findFirstAddedAnnot aid (getAllEvents store s) with
      | some a => .ok (some ⟨s, v, u, now, .annotAdded a⟩)
      | none => .ok none

/-- `CircuitService.undo`: pop the user's undo stack (`None` when empty),
synthesize the inverse, append it and push the original onto the redo
stack; when no inverse can be determined, return `None` with the popped
event already removed. -/
def undo (now : Nat) (s u : String) (st : ServiceState) :
    Except SvcError (Option (CircuitEvent × CircuitState)) × ServiceState :=
  let stack := getStack st.undoStacks s u
  match stack.getLast? with
  | none => (.ok none, st)
  | some lastEv =>
    let st1 := { st with undoStacks := setStack st.undoStacks s u stack.dropLast }
    match getCircuitState st1.store s now with
    | .error e => (.error e, st1)
    | .ok state =>
      match createInverseEvent st1.store s u now lastEv state with
      | .error e => (.error e, st1)
      | .ok none => (.ok none, st1)
      | .ok (some inv) =>
        match appendEvent st1.store (dump inv) with
        | .error e => (.error e, st1)
        | .ok store2 =>
          let st2 := { st1 with
            store := store2,
            redoStacks := setStack st1.redoStacks s u
              (getStack st1.redoStacks s u ++ [lastEv]) }
          match getCircuitState st2.store s now with
          | .error e => (.error e, st2)
          | .ok state2 => (.ok (some (inv, state2)), st2)

/-- `CircuitService.redo`: pop the redo stack, re-append a copy of the event
under a fresh version and timestamp (`_recreate_event_with_version`), and
push the copy back onto the undo stack (directly, without the 50-cap). -/
def redo (now : Nat) (s u : String) (st : ServiceState) :
    Except SvcError (Option (CircuitEvent × CircuitState)) × ServiceState :=
  let stack := getStack st.redoStacks s u
  match stack.getLast? with
  | none => (.ok none, st)
  | some ev =>
    let st1 := { st with redoStacks := setStack st.redoStacks s u stack.dropLast }
    let v := getNextVersion st1.store s
    let newEv : CircuitEvent := { ev with version := v, timestamp := now }
    match appendEvent st1.store (dump newEv) with
    | .error e => (.error e, st1)
    | .ok store2 =>
      let st2 := { st1 with
        store := store2,
        undoStacks := setStack st1.undoStacks s u
          (getStack st1.undoStacks s u ++ [newEv]) }
      match getCircuitState st2.store s now with
      | .error e => (.error e, st2)
      | .ok state2 => (.ok (some (newEv, state2)), st2)

/-- One mutation command of the service's public surface. -/
inductive Command where
  | addComponent (c : CircuitComponent)
  | moveComponent (cid : String) (pos : Position)
  | deleteComponent (cid : String)
  | addWire (w : Wire)
  | deleteWire (wid : String)
  | addAnnot (a : Annot)
  | deleteAnnot (aid : String)
deriving DecidableEq

/-- Execute one timestamped command for a fixed session and user, keeping
whatever service state the operation leaves behind (a raised exception is
reported to the caller and the session continues). -/
def execCommand (s u : String) (st : ServiceState) : Nat × Command → ServiceState
  | (now, .addComponent c) => (addComponent now s u c st).2
  | (now, .moveComponent cid pos) => (moveComponent now s u cid pos st).2
  | (now, .deleteComponent cid) => (deleteComponent now s u cid st).2
  | (now, .addWire w) => (addWire now s u w st).2
  | (now, .deleteWire wid) => (deleteWire now s u wid st).2
  | (now, .addAnnot a) => (addAnnot now s u a st).2
  | (now, .deleteAnnot aid) => (deleteAnnot now s u aid st).2

/-- Run a sequence of timestamped mutation commands. -/
def runCommands (s u : String) (cmds : List (Nat × Command))
    (st : ServiceState) : ServiceState :=
  cmds.foldl (execCommand s u) st

/-- `SimulationService.INPUT_DEVICES` (component types that produce signals
and need no input connections), by enumeration value. -/
def inputDevices : List String :=
  ["SWITCH_TOGGLE", "SWITCH_PUSH", "CONST_HIGH", "CONST_LOW", "CLOCK",
   "DIP_SWITCH_4", "NUMERIC_INPUT"]

/-- A structured simulation error (`SimulationError` in
`app/services/simulation_service.py`). -/
structure SimError where
  errorType : String
  message : String
  componentId : Option String
  pinId : Option String
deriving DecidableEq

/-- Append a driver to the per-input-pin driver map, preserving dict
insertion order (`output_drivers` in `_validate_circuit`). -/
def driversAdd (m : List ((String × String) × List String))
    (k : String × String) (v : String) : List ((String × String) × List String) :=
  match m with
  | [] => [(k, [v])]
  | kv :: rest =>
      if kv.1 = k then (kv.1, kv.2 ++ [v]) :: rest
      else kv :: driversAdd rest k v

/-- `{c.id: c for c in circuit.components}` lookup — a later component with
the same id overwrites an earlier one. -/
def lookupLastComponent (circuit : CircuitState) (cid : String) :
    Option CircuitComponent :=
  circuit.components.foldl (fun acc c => if c.id = cid then some c else acc) none

/-- The floating-input pass of `SimulationService._validate_circuit`: every
input pin of every non-input-device component must appear as a wire target. -/
def floatingErrors (circuit : CircuitState)
    (connected : List (String × String)) : List SimError :=
  circuit.components.flatMap (fun comp =>
    if inputDevices.contains comp.type then []
    else
      (comp.pins.filter (fun p => decide (p.type = PinType.input))).filterMap
        (fun p =>
          if connected.contains (comp.id, p.id) then none
          else some
            ⟨"FLOATING_INPUT",
             "Floating Input: Input pin \x27" ++ p.name ++ "\x27 has no connection",
             some comp.id, some p.id⟩))

/-- The output-conflict pass of `SimulationService._validate_circuit`. When
an input pin has more than one distinct driver the code evaluates
`comp.label`; `CircuitComponent` has no `label` field, so a present
component raises `AttributeError` (modelled as an error). -/
def conflictErrors (circuit : CircuitState) :
    List ((String × String) × List String) → Except SvcError (List SimError)
  | [] => .ok []
  | (key, drivers) :: rest =>
      if 1 < drivers.dedup.length then
        match lookupLastComponent circuit key.1 with
        | some _ => .error (.keyError "label")
        | none =>
            match conflictErrors circuit rest with
            | .error e => .error e
            | .ok l =>
                .ok (⟨"OUTPUT_CONFLICT",
                      "Output Conflict: " ++ key.1 ++ " pin \x27" ++ key.2 ++
                        "\x27 has multiple drivers",
                      some key.1, some key.2⟩ :: l)
      else conflictErrors circuit rest

/-- `SimulationService._validate_circuit`: floating-input errors (in
component/pin order) followed by output-conflict errors (in first-appearance
order of the conflicting target pin). -/
def validateCircuit (circuit : CircuitState) : Except SvcError (List SimError) :=
  let connected := circuit.wires.map (fun w => (w.toComponentId, w.toPinId))
  let drivers := circuit.wires.foldl
    (fun m w => driversAdd m (w.toComponentId, w.toPinId) w.fromComponentId) []
  let floats := floatingErrors circuit connected
  match conflictErrors circuit drivers with
  | .error e => .error e
  | .ok confs => .ok (floats ++ confs)

/-- Four-valued signal level of the discrete-event engine (`Signal`). -/
inductive Signal where
  | high
  | low
  | z
  | x
deriving DecidableEq

/-- A scheduled simulation event (`Event` in
`app/services/simulation_engine.py`), ordered by `(time, seq)`. -/
structure SimEvent where
  time : Nat
  seq : Nat
  componentId : String
  pinId : String
  value : Signal
deriving DecidableEq

/-- Per-component `internal` dict; the code only ever uses the keys
`Q`, `prev_clk`, `count`, `reg` and `phase`. -/
structure InternalState where
  q : Option Signal
  prevClk : Option Signal
  count : Option Nat
  reg : Option Nat
  phase : Option Nat
deriving DecidableEq

/-- The empty internal dict. -/
def InternalState.empty : InternalState := ⟨none, none, none, none, none⟩

/-- Runtime state of a component (`ComponentState`). -/
structure CompState where
  outputs : List (String × Signal)
  internal : InternalState
deriving DecidableEq

/-- Ordered string-keyed dict lookup. -/
def assocFind {α : Type} (l : List (String × α)) (k : String) : Option α :=
  (l.find? (fun kv => kv.1 == k)).map (fun kv => kv.2)

/-- Ordered string-keyed dict update (replace in place, append new keys). -/
def assocSet {α : Type} : List (String × α) → String → α → List (String × α)
  | [], k, v => [(k, v)]
  | kv :: rest, k, v =>
      if kv.1 == k then (k, v) :: rest else kv :: assocSet rest k v

/-- The `"comp:pin"` key strings used by the engine. -/
def pinKey (cid pid : String) : String := cid ++ ":" ++ pid

/-- The discrete-event simulation engine's state (`SimulationEngine`). The
priority queue is modelled as a list from which the `(time, seq)`-minimal
event is popped. -/
structure SimEngine where
  time : Nat
  seq : Nat
  events : List SimEvent
  components : List (String × CircuitComponent)
  wires : List Wire
  states : List (String × CompState)
  pinValues : List (String × Signal)
  connections : List (String × List String)
deriving DecidableEq

/-- The heap ordering of `Event` (compare `time`, then `seq`). -/
def lessEv (a b : SimEvent) : Bool :=
  a.time < b.time || (a.time == b.time && a.seq < b.seq)

/-- Minimal event of the queue (first of the minimal `(time, seq)`;
`(time, seq)` pairs are unique since `seq` increments on every push). -/
def findMinEv (l : List SimEvent) : Option SimEvent :=
  l.foldl (fun acc e =>
    match acc with
    | none => some e
    | some m => if lessEv e m then some e else some m) none

/-- Remove the first occurrence of an event from the queue. -/
def removeFirstEv : List SimEvent → SimEvent → List SimEvent
  | [], _ => []
  | e :: rest, m => if e = m then rest else e :: removeFirstEv rest m

/-- `heapq.heappop`: pop the `(time, seq)`-minimal event. -/
def popMin (l : List SimEvent) : Option (SimEvent × List SimEvent) :=
  match findMinEv l with
  | none => none
  | some m => some (m, removeFirstEv l m)

/-- Python truthiness of an optional property value. -/
def truthy (o : Option Bool) : Bool := o.getD false

/-- Output initialization of `SimulationEngine._init_component`. -/
def initOutputs (comp : CircuitComponent) : List (String × Signal) × InternalState :=
  if ["CONST_HIGH", "VCC_5V", "VCC_3V3"].contains comp.type then
    ([("OUT", .high)], InternalState.empty)
  else if ["CONST_LOW", "GROUND"].contains comp.type then
    ([("OUT", .low)], InternalState.empty)
  else if comp.type = "SWITCH_TOGGLE" then
    ([("OUT", if truthy comp.properties.state then Signal.high else .low)],
     InternalState.empty)
  else if comp.type = "SWITCH_PUSH" then
    ([("OUT",
       if truthy comp.properties.pressed || truthy comp.properties.state then
         Signal.high
       else .low)],
     InternalState.empty)
  else if comp.type = "CLOCK" then
    ([("CLK", .low)], { InternalState.empty with phase := some 0 })
  else
    ((comp.pins.filter (fun p => decide (p.type = PinType.output))).map
      (fun p => (p.id, Signal.low)),
     InternalState.empty)

/-- `SimulationEngine._init_component`: store the initialized outputs and
mirror them into `pin_values`. -/
def initComponent (e : SimEngine) (comp : CircuitComponent) : SimEngine :=
  let (outs, internal) := initOutputs comp
  { e with
    states := assocSet e.states comp.id ⟨outs, internal⟩,
    pinValues := outs.foldl
      (fun pv pr => assocSet pv (pinKey comp.id pr.1) pr.2) e.pinValues }

/-- The connection-map build step of `SimulationEngine.load_circuit`. -/
def connAdd (m : List (String × List String)) (fromKey toKey : String) :
    List (String × List String) :=
  match assocFind m fromKey with
  | some l => assocSet m fromKey (l ++ [toKey])
  | none => m ++ [(fromKey, [toKey])]

/-- `SimulationEngine.load_circuit`. -/
def loadCircuit (circuit : CircuitState) : SimEngine :=
  let comps := circuit.components.foldl (fun m c => assocSet m c.id c) []
  let states0 := circuit.components.foldl
    (fun m c => assocSet m c.id (⟨[], InternalState.empty⟩ : CompState)) []
  let conns := circuit.wires.foldl
    (fun m w =>
      connAdd m (pinKey w.fromComponentId w.fromPinId)
        (pinKey w.toComponentId w.toPinId)) []
  let base : SimEngine :=
    ⟨0, 0, [], comps, circuit.wires, states0, [], conns⟩
  circuit.components.foldl initComponent base

/-- `SimulationEngine.schedule`. -/
def schedule (e : SimEngine) (delay : Nat) (cid pid : String) (v : Signal) :
    SimEngine :=
  { e with events := e.events ++ [⟨e.time + delay, e.seq, cid, pid, v⟩],
           seq := e.seq + 1 }

/-- `SimulationEngine._get_input`: the first connection-map entry whose
target list contains this input pin gives the driving source pin's value
(`X` if the source pin has no value or the input is unconnected). -/
def getInputSig (e : SimEngine) (cid pid : String) : Signal :=
  let key := pinKey cid pid
  match e.connections.find? (fun kv => kv.2.contains key) with
  | some kv => (assocFind e.pinValues kv.1).getD .x
  | none => .x

/-- `SimulationEngine._get_inputs`. -/
def getInputs (e : SimEngine) (comp : CircuitComponent) : List (String × Signal) :=
  (comp.pins.filter (fun p => decide (p.type = PinType.input))).map
    (fun p => (p.id, getInputSig e comp.id p.id))

/-- `SimulationEngine._and`. -/
def sigAnd (ss : List Signal) : Signal :=
  if ss.any (fun s => decide (s = Signal.x)) then .x
  else if ss.all (fun s => decide (s = Signal.high)) then .high
  else .low

/-- `SimulationEngine._or`. -/
def sigOr (ss : List Signal) : Signal :=
  if ss.any (fun s => decide (s = Signal.x)) then .x
  else if ss.any (fun s => decide (s = Signal.high)) then .high
  else .low

/-- `SimulationEngine._not`. -/
def sigNot (s : Signal) : Signal :=
  if s = .high then .low else if s = .low then .high else .x

/-- `SimulationEngine._xor`. -/
def sigXor (a b : Signal) : Signal :=
  if a = .x ∨ b = .x then .x
  else if (a = Signal.high) ≠ (b = Signal.high) then .high
  else .low

/-- `Q0..Qn` bit readout used by the counter and shift register. -/
def bitSig (n i : Nat) : Signal := if n.testBit i then .high else .low

/-- `SimulationEngine._compute_outputs`: per-type evaluation. Sequential
branches also return the mutated `internal` dict. -/
def computeOutputs (comp : CircuitComponent) (inputs : List (String × Signal))
    (internal : InternalState) : List (String × Signal) × InternalState :=
  let t := comp.type
  let vals := inputs.map (fun pr => pr.2)
  let getI := fun (n : String) (d : Signal) => (assocFind inputs n).getD d
  if ["AND_2", "AND_3", "AND_4"].contains t then ([("Y", sigAnd vals)], internal)
  else if ["OR_2", "OR_3", "OR_4"].contains t then ([("Y", sigOr vals)], internal)
  else if t = "NOT" then ([("Y", sigNot (getI "A" .x))], internal)
  else if t = "BUFFER" then ([("Y", getI "A" .x)], internal)
  else if ["NAND_2", "NAND_3"].contains t then
    ([("Y", sigNot (sigAnd vals))], internal)
  else if ["NOR_2", "NOR_3"].contains t then
    ([("Y", sigNot (sigOr vals))], internal)
  else if t = "XOR_2" then
    ([("Y", match vals with | [a, b] => sigXor a b | _ => Signal.x)], internal)
  else if t = "XNOR_2" then
    ([("Y", match vals with | [a, b] => sigNot (sigXor a b) | _ => Signal.x)],
     internal)
  else if t = "MUX_2TO1" then
    if getI "S" .low = .high then ([("Y", getI "B" .x)], internal)
    else ([("Y", getI "A" .x)], internal)
  else if t = "DECODER_2TO4" then
    let a0 := if getI "A0" .low = .high then 1 else 0
    let a1 := if getI "A1" .low = .high then 1 else 0
    let sel := a0 + a1 * 2
    ([("Y0", if sel = 0 then Signal.high else .low),
      ("Y1", if sel = 1 then Signal.high else .low),
      ("Y2", if sel = 2 then Signal.high else .low),
      ("Y3", if sel = 3 then Signal.high else .low)], internal)
  else if t = "SR_LATCH" then
    let s := getI "S" .low
    let r := getI "R" .low
    let q0 := internal.q.getD .low
    let q :=
      if s = Signal.high ∧ r = Signal.high then Signal.x
      else if s = Signal.high then .high
      else if r = Signal.high then .low
      else q0
    ([("Q", q), ("Q\x27", sigNot q)], { internal with q := some q })
  else if t = "D_FLIPFLOP" then
    let d := getI "D" .low
    let clk := getI "CLK" .low
    let prev := internal.prevClk.getD .low
    let q0 := internal.q.getD .low
    let rising := prev = Signal.low ∧ clk = Signal.high
    let q := if rising then d else q0
    ([("Q", q), ("Q\x27", sigNot q)],
     { internal with q := if rising then some d else internal.q,
                     prevClk := some clk })
  else if t = "JK_FLIPFLOP" then
    let j := getI "J" .low
    let k := getI "K" .low
    let clk := getI "CLK" .low
    let prev := internal.prevClk.getD .low
    let q0 := internal.q.getD .low
    let rising := prev = Signal.low ∧ clk = Signal.high
    let q :=
      if rising then
        if j = Signal.high ∧ k = Signal.high then sigNot q0
        else if j = Signal.high then .high
        else if k = Signal.high then .low
        else q0
      else q0
    ([("Q", q), ("Q\x27", sigNot q)],
     { internal with q := if rising then some q else internal.q,
                     prevClk := some clk })
  else if t = "COUNTER_4BIT" then
    let clk := getI "CLK" .low
    let prev := internal.prevClk.getD .low
    let c0 := internal.count.getD 0
    let rising := prev = Signal.low ∧ clk = Signal.high
    let c := if rising then (c0 + 1) % 16 else c0
    ([("Q0", bitSig c 0), ("Q1", bitSig c 1),
      ("Q2", bitSig c 2), ("Q3", bitSig c 3)],
     { internal with count := if rising then some c else internal.count,
                     prevClk := some clk })
  else if t = "SHIFT_REGISTER_8BIT" then
    let si := getI "SI" .low
    let clk := getI "CLK" .low
    let prev := internal.prevClk.getD .low
    let r0 := internal.reg.getD 0
    let rising := prev = Signal.low ∧ clk = Signal.high
    let r := if rising then (r0 * 2 + (if si = Signal.high then 1 else 0)) % 256 else r0
    ((List.range 8).map (fun i => ("Q" ++ toString i, bitSig r i)),
     { internal with reg := if rising then some r else internal.reg,
                     prevClk := some clk })
  else if t = "JUNCTION" then
    let v := getI "IN" .z
    ([("OUT1", v), ("OUT2", v)], internal)
  else ([], internal)

/-- `SimulationEngine._evaluate_component`: read inputs, compute outputs
(persisting internal-state mutations), and schedule a one-tick-delayed
event for every output whose value changed. -/
def evaluateComponent (e : SimEngine) (compId : String) :
    Except SvcError SimEngine :=
  match assocFind e.components compId with
  | none => .ok e
  | some comp =>
    let inputs := getInputs e comp
    match assocFind e.states compId with
    | none => .error (.keyError compId)
    | some st =>
      let outPair := computeOutputs comp inputs st.internal
      let e1 := { e with
        states := assocSet e.states compId ⟨st.outputs, outPair.2⟩ }
      .ok (outPair.1.foldl
        (fun acc pr =>
          let current := (assocFind st.outputs pr.1).getD .x
          if pr.2 = current then acc
          else schedule acc 1 compId pr.1 pr.2)
        e1)

/-- Split a string at every colon (Python's `split(":")`). -/
def splitColonAux : List Char → List Char → List String
  | [], acc => [String.mk acc.reverse]
  | c :: rest, acc =>
      if c = ':' then String.mk acc.reverse :: splitColonAux rest []
      else splitColonAux rest (c :: acc)

/-- The `to_key.split(":")` of `SimulationEngine.step`. -/
def splitColon (s : String) : List String := splitColonAux s.data []

/-- The propagation loop of `SimulationEngine.step`: for each connected
input pin, mirror the new value into `pin_values` and re-evaluate the
driven component. A target key that does not split into exactly
`component:pin` raises. -/
def propagate : List String → SimEngine → Signal → Except SvcError SimEngine
  | [], e, _ => .ok e
  | tk :: rest, e, v =>
      match splitColon tk with
      | [toComp, _] =>
          let e1 := { e with pinValues := assocSet e.pinValues tk v }
          match evaluateComponent e1 toComp with
          | .error er => .error er
          | .ok e2 => propagate rest e2 v
      | _ => .error (.keyError "unpack")

/-- `SimulationEngine.step`: pop the earliest event; if the signal actually
changed, update the pin and the owning component's outputs and propagate
along every outgoing connection. Returns `False` when the queue is empty. -/
def step (e : SimEngine) : Except SvcError (Bool × SimEngine) :=
  match popMin e.events with
  | none => .ok (false, e)
  | some (ev, rest) =>
    let e1 := { e with events := rest, time := ev.time }
    let key := pinKey ev.componentId ev.pinId
    let oldV := (assocFind e1.pinValues key).getD .x
    if oldV = ev.value then .ok (true, e1)
    else
      match assocFind e1.states ev.componentId with
      | none => .error (.keyError ev.componentId)
      | some st =>
        let e2 := { e1 with
          pinValues := assocSet e1.pinValues key ev.value,
          states := assocSet e1.states ev.componentId
            ⟨assocSet st.outputs ev.pinId ev.value, st.internal⟩ }
        match propagate ((assocFind e2.connections key).getD []) e2 ev.value with
        | .error er => .error er
        | .ok e3 => .ok (true, e3)

/-- The loop of `SimulationEngine.run`
(`while self.step() and steps < max_steps: steps += 1`): `fuel` is the
number of additional iterations the step counter still allows. -/
def runAux : Nat → SimEngine → Except SvcError SimEngine
  | fuel, e =>
    match step e with
    | .error er => .error er
    | .ok (b, e1) =>
      if b then
        match fuel with
        | 0 => .ok e1
        | f + 1 => runAux f e1
      else .ok e1

/-- `SimulationEngine.run` with its safety bound. -/
def runEngine (e : SimEngine) (maxSteps : Nat) : Except SvcError SimEngine :=
  runAux maxSteps e

/-- `SimulationEngine.toggle_switch`: schedule a zero-delay inversion of the
switch's `OUT` pin (a no-op for missing or non-toggle components). -/
def toggleSwitch (e : SimEngine) (cid : String) : SimEngine :=
  match assocFind e.components cid with
  | none => e
  | some comp =>
      if comp.type ≠ "SWITCH_TOGGLE" then e
      else
        let current := (assocFind e.pinValues (pinKey cid "OUT")).getD .low
        schedule e 0 cid "OUT" (if current = Signal.high then .low else .high)

/-- `WebSocketHandler._handle_simulation_start` (simulation part): load the
current circuit into a fresh engine and run it to settlement. No
completeness check of any kind is performed on this path —
`SimulationService` is never invoked. -/
def handleSimulationStart (circuit : CircuitState) : Except SvcError SimEngine :=
  runEngine (loadCircuit circuit) 10000

/-! ## Observable projection

`_apply_event` stamps `state.updated_at = datetime.utcnow()` on every fold
step, so the reconstructed state carries the reconstruction-time wall clock.
`ObsState` is the projection onto every other field. -/

/-- All fields of a `CircuitState` except the `updatedAt` wall-clock stamp. -/
structure ObsState where
  sessionId : String
  version : Nat
  schemaVersion : String
  components : List CircuitComponent
  wires : List Wire
  annotations : List Annot
deriving DecidableEq

/-- Forget the `updatedAt` timestamp. -/
def obsProj (s : CircuitState) : ObsState :=
  ⟨s.sessionId, s.version, s.schemaVersion, s.components, s.wires, s.annotations⟩

/-- The observable part of the empty state. -/
def emptyObs (s : String) : ObsState :=
  ⟨s, 0, schemaVersionConst, [], [], []⟩

/-- `applyEvent` restricted to the observable fields (it never reads the
clock or the incoming `updatedAt`). -/
def applyEventObs (o : ObsState) (d : EventDoc) : Except SvcError ObsState :=
  if d.type = "COMPONENT_ADDED" then
    match d.payload.component with
    | none => .error (.keyError "component")
    | some c =>
        .ok { o with components := o.components ++ [c], version := d.version }
  else if d.type = "COMPONENT_MOVED" then
    match d.payload.position with
    | none => .error (.keyError "position")
    | some pos =>
        .ok { o with
                components := moveFirst o.components d.payload.componentId pos,
                version := d.version }
  else if d.type = "COMPONENT_DELETED" then
    .ok { o with
            components :=
              o.components.filter (fun c => !(decide (some c.id = d.payload.componentId))),
            version := d.version }
  else if d.type = "WIRE_ADDED" then
    match d.payload.wire with
    | none => .error (.keyError "wire")
    | some w => .ok { o with wires := o.wires ++ [w], version := d.version }
  else if d.type = "WIRE_DELETED" then
    .ok { o with
            wires := o.wires.filter (fun w => !(decide (some w.id = d.payload.wireId))),
            version := d.version }
  else if d.type = "ANNOTATION_ADDED" then
    match d.payload.annot with
    | none => .error (.keyError "annotation")
    | some a =>
        .ok { o with annotations := o.annotations ++ [a], version := d.version }
  else if d.type = "ANNOTATION_DELETED" then
    .ok { o with
            annotations :=
              o.annotations.filter (fun a => !(decide (some a.id = d.payload.annotId))),
            version := d.version }
  else .ok o

/-- Observable fold over a list of event documents. -/
def applyEventsObs (o : ObsState) : List EventDoc → Except SvcError ObsState
  | [] => .ok o
  | d :: rest =>
      match applyEventObs o d with
      | .error e => .error e
      | .ok o1 => applyEventsObs o1 rest

theorem applyEvent_obs (s : CircuitState) (now : Nat) (d : EventDoc) :
    (applyEvent s now d).map obsProj = applyEventObs (obsProj s) d := by
  unfold applyEvent applyEventObs
  split_ifs <;>
    first
      | rfl
      | (cases d.payload.component <;> rfl)
      | (cases d.payload.position <;> rfl)
      | (cases d.payload.wire <;> rfl)
      | (cases d.payload.annot <;> rfl)

theorem applyEvents_obs (l : List EventDoc) (s : CircuitState) (now : Nat) :
    (applyEvents now s l).map obsProj = applyEventsObs (obsProj s) l := by
  induction l generalizing s with
  | nil => rfl
  | cons d rest ih =>
      simp only [applyEvents, applyEventsObs]
      have h := applyEvent_obs s now d
      cases hA : applyEvent s now d with
      | error e =>
          rw [hA] at h
          rw [← h]
          rfl
      | ok s1 =>
          rw [hA] at h
          rw [← h]
          exact ih s1

theorem getCircuitState_obs (store : Store) (s : String) (now : Nat) :
    (getCircuitState store s now).map obsProj =
      match latestSnapshot store s with
      | some sn => applyEventsObs (obsProj sn.state) (eventsSinceVersion store s sn.version)
      | none => applyEventsObs (emptyObs s) (eventsSinceVersion store s 0) := by
  unfold getCircuitState
  cases latestSnapshot store s with
  | some sn => exact applyEvents_obs _ _ _
  | none =>
      have h := applyEvents_obs (eventsSinceVersion store s 0) (emptyState s now) now
      simpa [obsProj, emptyState, emptyObs] using h

/-- The seven stored event type tags (`CircuitEventType`). -/
def sevenTypes : List String :=
  ["COMPONENT_ADDED", "COMPONENT_MOVED", "COMPONENT_DELETED", "WIRE_ADDED",
   "WIRE_DELETED", "ANNOTATION_ADDED", "ANNOTATION_DELETED"]

/-- A stored document is well-formed when the payload key its type requires
is present (exactly the condition under which `_apply_event` cannot raise). -/
def wfDoc (d : EventDoc) : Bool :=
  if d.type = "COMPONENT_ADDED" then d.payload.component.isSome
  else if d.type = "COMPONENT_MOVED" then d.payload.position.isSome
  else if d.type = "WIRE_ADDED" then d.payload.wire.isSome
  else if d.type = "ANNOTATION_ADDED" then d.payload.annot.isSome
  else true

/-- A document as the service itself stores it: one of the seven variants,
with its required payload key present. -/
def serviceDoc (d : EventDoc) : Bool := sevenTypes.contains d.type && wfDoc d

instance instDecEqExcept {ε α : Type} [DecidableEq ε] [DecidableEq α] :
    DecidableEq (Except ε α) := fun a b =>
  match a, b with
  | .error e1, .error e2 =>
      if h : e1 = e2 then isTrue (by subst h; rfl)
      else isFalse (fun hh => h (by injection hh))
  | .ok v1, .ok v2 =>
      if h : v1 = v2 then isTrue (by subst h; rfl)
      else isFalse (fun hh => h (by injection hh))
  | .error _, .ok _ => isFalse (fun hh => Except.noConfusion hh)
  | .ok _, .error _ => isFalse (fun hh => Except.noConfusion hh)

/-! ## Concrete test fixtures -/

/-- A bare two-input AND gate component for event-log fixtures. -/
def compA : CircuitComponent := ⟨"A", "AND_2", ⟨0, 0⟩, 0, Props.empty, []⟩

/-- Store fixture for C1: three service-produced events at versions 1-3. -/
def storeC1 : Store :=
  ⟨[dump ⟨"s", 1, "u", 0, .componentAdded compA⟩,
    dump ⟨"s", 2, "u", 1, .componentMoved "A" ⟨1, 1⟩⟩,
    dump ⟨"s", 3, "u", 2, .componentMoved "A" ⟨2, 2⟩⟩], []⟩

/-- An event whose version (5) skips past the current head (3): the caller
assumed a head of 4, which does not match. -/
def docV5 : EventDoc := dump ⟨"s", 5, "u", 9, .componentAdded compA⟩

/-- C1 counterexample: an append whose version does not match the current
head (head is 3, the event carries version 5) is accepted by `append_event`
and extends the log, instead of failing with a Conflict error and leaving
the log unchanged as the claim states. -/
theorem append_mismatched_version_accepted :
    latestVersion storeC1 "s" = 3 ∧ docV5.version = 5 ∧
      appendEvent storeC1 docV5 = .ok ⟨storeC1.events ++ [docV5], []⟩ := by
  decide

/-- Store fixture for C3: a single stored event. -/
def storeC3 : Store := ⟨[dump ⟨"s", 1, "u", 0, .componentAdded compA⟩], []⟩

/-- C3 counterexample: reconstruction is not a pure function of the stored
snapshot and events — two runs over the same stored inputs at wall-clock
times 5 and 7 give different `CircuitState` values (they differ in
`updatedAt`). -/
theorem reconstruction_not_bit_identical :
    getCircuitState storeC3 "s" 5 ≠ getCircuitState storeC3 "s" 7 := by
  decide

/-- C3 amended: reconstruction is deterministic on every field except
`updatedAt` — for any store and session, reconstructions at any two
wall-clock instants agree after forgetting the timestamp. -/
theorem reconstruction_deterministic_up_to_timestamp
    (store : Store) (s : String) (t1 t2 : Nat) :
    (getCircuitState store s t1).map obsProj =
      (getCircuitState store s t2).map obsProj := by
  rw [getCircuitState_obs, getCircuitState_obs]

/-! ## C4 fixture: add a component at the origin, move it, undo the move. -/

/-- Service state after `add_component` of component `A` at `(0, 0)`. -/
def c4St1 : ServiceState := (addComponent 0 "s" "u" compA initialService).2

/-- Service state after additionally `move_component` of `A` to `(5, 5)`. -/
def c4St2 : ServiceState := (moveComponent 1 "s" "u" "A" ⟨5, 5⟩ c4St1).2

/-- The undo issued immediately after the move. -/
def c4Undo : Except SvcError (Option (CircuitEvent × CircuitState)) × ServiceState :=
  undo 2 "s" "u" c4St2

/-- C4 failing input: the inverse of a `ComponentMoved` event is computed by
scanning the component's full Added/Moved history — including the move
being undone, whose position therefore wins the scan. Undo of the move to
`(5, 5)` appends a move to `(5, 5)` again: the reconstructed state keeps the
component at `(5, 5)` instead of restoring the pre-move `(0, 0)`. -/
theorem undo_move_restores_moved_position :
    Except.map (fun p => Option.map (fun q => q.1.payload) p) c4Undo.1 =
        .ok (some (.componentMoved "A" ⟨5, 5⟩)) ∧
      Except.map (fun st => st.components.map (fun c => c.position))
          (getCircuitState c4Undo.2.store "s" 9) = .ok [⟨5, 5⟩] ∧
      Except.map (fun st => st.components.map (fun c => c.position))
          (getCircuitState c4St1.store "s" 9) = .ok [⟨0, 0⟩] := by
  decide

/-! ## C8 fixture: an AND gate with unconnected inputs. -/

/-- A two-input AND gate with named pins. -/
def c8Gate : CircuitComponent :=
  ⟨"g", "AND_2", ⟨0, 0⟩, 0, Props.empty,
   [⟨"A", "A", .input, ⟨0, 0⟩⟩, ⟨"B", "B", .input, ⟨0, 0⟩⟩,
    ⟨"Y", "Y", .output, ⟨0, 0⟩⟩]⟩

/-- A circuit whose only component has two floating inputs. -/
def c8Circuit : CircuitState :=
  ⟨"s", 1, schemaVersionConst, [c8Gate], [], [], 0⟩

/-- C8 failing input: the completeness check (`_validate_circuit`) reports
both floating inputs with their component and pin identifiers, yet the
websocket `simulation:start` path never invokes it — it loads and runs the
engine regardless, settling with the gate output initialized LOW. -/
theorem simulation_start_skips_completeness_check :
    validateCircuit c8Circuit =
        .ok [⟨"FLOATING_INPUT",
              "Floating Input: Input pin \x27A\x27 has no connection",
              some "g", some "A"⟩,
             ⟨"FLOATING_INPUT",
              "Floating Input: Input pin \x27B\x27 has no connection",
              some "g", some "B"⟩] ∧
      Except.map (fun e => e.pinValues) (handleSimulationStart c8Circuit) =
        .ok [(pinKey "g" "Y", Signal.low)] := by
  decide

/-! ## C9 fixture: SW1 and SW2 into an AND gate driving an LED. -/

/-- Toggle switch `SW1`, initially off. -/
def sw1 : CircuitComponent :=
  ⟨"SW1", "SWITCH_TOGGLE", ⟨0, 0⟩, 0, ⟨some false, none, none⟩,
   [⟨"OUT", "OUT", .output, ⟨0, 0⟩⟩]⟩

/-- Toggle switch `SW2`, initially on. -/
def sw2 : CircuitComponent :=
  ⟨"SW2", "SWITCH_TOGGLE", ⟨0, 0⟩, 0, ⟨some true, none, none⟩,
   [⟨"OUT", "OUT", .output, ⟨0, 0⟩⟩]⟩

/-- The AND gate of the scenario. -/
def andGate : CircuitComponent :=
  ⟨"AND1", "AND_2", ⟨0, 0⟩, 0, Props.empty,
   [⟨"A", "A", .input, ⟨0, 0⟩⟩, ⟨"B", "B", .input, ⟨0, 0⟩⟩,
    ⟨"Y", "Y", .output, ⟨0, 0⟩⟩]⟩

/-- The LED of the scenario. -/
def led : CircuitComponent :=
  ⟨"LED1", "LED_RED", ⟨0, 0⟩, 0, Props.empty, [⟨"IN", "IN", .input, ⟨0, 0⟩⟩]⟩

/-- SW1→AND.A, SW2→AND.B, AND.Y→LED.IN. -/
def c9Wires : List Wire :=
  [⟨"w1", "SW1", "OUT", "AND1", "A", []⟩,
   ⟨"w2", "SW2", "OUT", "AND1", "B", []⟩,
   ⟨"w3", "AND1", "Y", "LED1", "IN", []⟩]

/-- The scenario circuit. -/
def c9Circuit : CircuitState :=
  ⟨"s", 3, schemaVersionConst, [sw1, sw2, andGate, led], c9Wires, [], 0⟩

/-- The engine after `simulation:start` (load + run to settlement). -/
def c9Run1 : Except SvcError SimEngine := handleSimulationStart c9Circuit

/-- The engine after additionally toggling SW1 and re-running. -/
def c9Run2 : Except SvcError SimEngine :=
  c9Run1.bind (fun e => runEngine (toggleSwitch e "SW1") 10000)

/-- Computation rule of `Except.bind` on a success value. -/
theorem except_bind_ok {ε α β : Type} (a : α) (f : α → Except ε β) :
    (Except.ok a : Except ε α).bind f = f a := rfl

/-- Unfolding lemma for the run loop: a step that processed an event
consumes one unit of the remaining step budget. -/
theorem runAux_step_true {f : Nat} {e e1 : SimEngine}
    (h : step e = .ok (true, e1)) : runAux (f + 1) e = runAux f e1 := by
  rw [runAux, h]
  simp

/-- Unfolding lemma for the run loop: an empty queue stops the run. -/
theorem runAux_step_false {f : Nat} {e e1 : SimEngine}
    (h : step e = .ok (false, e1)) : runAux f e = .ok e1 := by
  rw [runAux, h]
  simp

/-- The component dict of the loaded scenario engine. -/
def comps9 : List (String × CircuitComponent) :=
  [("SW1", sw1), ("SW2", sw2), ("AND1", andGate), ("LED1", led)]

/-- The connection map of the loaded scenario engine. -/
def conns9 : List (String × List String) :=
  [("SW1:OUT", ["AND1:A"]), ("SW2:OUT", ["AND1:B"]), ("AND1:Y", ["LED1:IN"])]

/-- The settled engine after the initial load-and-run. -/
def c9Settled1 : SimEngine :=
  ⟨0, 0, [], comps9, c9Wires,
   [("SW1", ⟨[("OUT", .low)], InternalState.empty⟩),
    ("SW2", ⟨[("OUT", .high)], InternalState.empty⟩),
    ("AND1", ⟨[("Y", .low)], InternalState.empty⟩),
    ("LED1", ⟨[], InternalState.empty⟩)],
   [("SW1:OUT", .low), ("SW2:OUT", .high), ("AND1:Y", .low)],
   [("SW1:OUT", ["AND1:A"]), ("SW2:OUT", ["AND1:B"]), ("AND1:Y", ["LED1:IN"])]⟩

/-- The engine right after `toggle_switch("SW1")`: one scheduled event. -/
def c9Toggled : SimEngine :=
  ⟨0, 1, [⟨0, 0, "SW1", "OUT", .high⟩], comps9, c9Wires,
   [("SW1", ⟨[("OUT", .low)], InternalState.empty⟩),
    ("SW2", ⟨[("OUT", .high)], InternalState.empty⟩),
    ("AND1", ⟨[("Y", .low)], InternalState.empty⟩),
    ("LED1", ⟨[], InternalState.empty⟩)],
   [("SW1:OUT", .low), ("SW2:OUT", .high), ("AND1:Y", .low)], conns9⟩

/-- The engine after the SW1 edge propagated into the AND gate (whose new
output is now scheduled one tick later). -/
def c9Mid : SimEngine :=
  ⟨0, 2, [⟨1, 1, "AND1", "Y", .high⟩], comps9, c9Wires,
   [("SW1", ⟨[("OUT", .high)], InternalState.empty⟩),
    ("SW2", ⟨[("OUT", .high)], InternalState.empty⟩),
    ("AND1", ⟨[("Y", .low)], InternalState.empty⟩),
    ("LED1", ⟨[], InternalState.empty⟩)],
   [("SW1:OUT", .high), ("SW2:OUT", .high), ("AND1:Y", .low),
    ("AND1:A", .high)], conns9⟩

/-- The settled engine after toggling SW1 and re-running. -/
def c9Settled2 : SimEngine :=
  ⟨1, 2, [], comps9, c9Wires,
   [("SW1", ⟨[("OUT", .high)], InternalState.empty⟩),
    ("SW2", ⟨[("OUT", .high)], InternalState.empty⟩),
    ("AND1", ⟨[("Y", .high)], InternalState.empty⟩),
    ("LED1", ⟨[], InternalState.empty⟩)],
   [("SW1:OUT", .high), ("SW2:OUT", .high), ("AND1:Y", .high),
    ("AND1:A", .high), ("LED1:IN", .high)], conns9⟩

/-- C9: with SW1=LOW and SW2=HIGH the settled signal at the LED's IN pin
(the value the engine reads for that input pin) is LOW; after toggling SW1
and re-running it settles HIGH, and the propagated pin value recorded for
`LED1:IN` is HIGH as well. -/
theorem and_gate_scenario :
    Except.map (fun e => getInputSig e "LED1" "IN") c9Run1 = .ok Signal.low ∧
      Except.map (fun e => getInputSig e "LED1" "IN") c9Run2 = .ok Signal.high ∧
      Except.map (fun e => assocFind e.pinValues (pinKey "LED1" "IN")) c9Run2 =
        .ok (some Signal.high) := by
  have hload : loadCircuit c9Circuit = c9Settled1 := by decide
  have hs0 : step c9Settled1 = .ok (false, c9Settled1) := by decide
  have h1 : c9Run1 = .ok c9Settled1 := by
    show runEngine (loadCircuit c9Circuit) 10000 = .ok c9Settled1
    rw [hload]
    exact runAux_step_false hs0
  have htog : toggleSwitch c9Settled1 "SW1" = c9Toggled := by decide
  have hs1 : step c9Toggled = .ok (true, c9Mid) := by decide
  have hs2 : step c9Mid = .ok (true, c9Settled2) := by decide
  have hs3 : step c9Settled2 = .ok (false, c9Settled2) := by decide
  have h2 : runEngine (toggleSwitch c9Settled1 "SW1") 10000 = .ok c9Settled2 := by
    rw [htog]
    show runAux (9999 + 1) c9Toggled = .ok c9Settled2
    rw [runAux_step_true hs1]
    show runAux (9998 + 1) c9Mid = .ok c9Settled2
    rw [runAux_step_true hs2]
    exact runAux_step_false hs3
  have hrun2 : c9Run2 = .ok c9Settled2 := by
    show c9Run1.bind (fun e => runEngine (toggleSwitch e "SW1") 10000) =
      .ok c9Settled2
    rw [h1, except_bind_ok]
    exact h2
  refine ⟨?_, ?_, ?_⟩
  · rw [h1]; decide
  · rw [hrun2]; decide
  · rw [hrun2]; decide

/-! ## C10: event replay is total -/

theorem moveFirst_no_match (l : List CircuitComponent) (cid : String)
    (pos : Position) (h : ∀ c ∈ l, c.id ≠ cid) :
    moveFirst l (some cid) pos = l := by
  induction l with
  | nil => rfl
  | cons c rest ih =>
      unfold moveFirst
      rw [if_neg fun heq => h c (List.mem_cons_self c rest) (Option.some.inj heq)]
      rw [ih fun c2 hc2 => h c2 (List.mem_cons_of_mem c hc2)]

/-- C10: replaying the log never fails on the seven stored variants — for
every state and every typed event, `_apply_event` returns a state; a
`ComponentMoved` whose component id is absent leaves the component list
unchanged; a deletion whose target id is absent removes nothing; and a
document of unrecognized type leaves all three lists unchanged. -/
theorem apply_event_replay_total (state : CircuitState) (now : Nat)
    (sc uid : String) (v ts : Nat) :
    (∀ p : EventPayload, ∃ s2, applyEvent state now (dump ⟨sc, v, uid, ts, p⟩) = .ok s2) ∧
    (∀ cid pos, (∀ c ∈ state.components, c.id ≠ cid) →
      applyEvent state now (dump ⟨sc, v, uid, ts, EventPayload.componentMoved cid pos⟩) =
        .ok { state with version := v, updatedAt := now }) ∧
    (∀ cid, (∀ c ∈ state.components, c.id ≠ cid) →
      applyEvent state now (dump ⟨sc, v, uid, ts, EventPayload.componentDeleted cid⟩) =
        .ok { state with version := v, updatedAt := now }) ∧
    (∀ wid, (∀ w ∈ state.wires, w.id ≠ wid) →
      applyEvent state now (dump ⟨sc, v, uid, ts, EventPayload.wireDeleted wid⟩) =
        .ok { state with version := v, updatedAt := now }) ∧
    (∀ aid, (∀ a ∈ state.annotations, a.id ≠ aid) →
      applyEvent state now (dump ⟨sc, v, uid, ts, EventPayload.annotDeleted aid⟩) =
        .ok { state with version := v, updatedAt := now }) ∧
    (∀ d : EventDoc, d.type ∉ sevenTypes →
      applyEvent state now d = .ok { state with updatedAt := now }) := by
  refine ⟨?_, ?_, ?_, ?_, ?_, ?_⟩
  · intro p
    cases p <;> exact ⟨_, rfl⟩
  · intro cid pos h
    have h0 : applyEvent state now (dump ⟨sc, v, uid, ts, .componentMoved cid pos⟩) =
        .ok { state with components := moveFirst state.components (some cid) pos,
                         version := v, updatedAt := now } := rfl
    rw [h0, moveFirst_no_match state.components cid pos h]
  · intro cid h
    have h0 : applyEvent state now (dump ⟨sc, v, uid, ts, .componentDeleted cid⟩) =
        .ok { state with
                components :=
                  state.components.filter (fun c => !(decide (some c.id = some cid))),
                version := v, updatedAt := now } := rfl
    rw [h0, List.filter_eq_self.mpr]
    intro c hc
    simp [h c hc]
  · intro wid h
    have h0 : applyEvent state now (dump ⟨sc, v, uid, ts, .wireDeleted wid⟩) =
        .ok { state with
                wires := state.wires.filter (fun w => !(decide (some w.id = some wid))),
                version := v, updatedAt := now } := rfl
    rw [h0, List.filter_eq_self.mpr]
    intro w hw
    simp [h w hw]
  · intro aid h
    have h0 : applyEvent state now (dump ⟨sc, v, uid, ts, .annotDeleted aid⟩) =
        .ok { state with
                annotations :=
                  state.annotations.filter (fun a => !(decide (some a.id = some aid))),
                version := v, updatedAt := now } := rfl
    rw [h0, List.filter_eq_self.mpr]
    intro a ha
    simp [h a ha]
  · intro d hd
    simp only [sevenTypes, List.mem_cons, List.not_mem_nil, or_false, not_or] at hd
    obtain ⟨h1, h2, h3, h4, h5, h6, h7⟩ := hd
    unfold applyEvent
    rw [if_neg h1, if_neg h2, if_neg h3, if_neg h4, if_neg h5, if_neg h6, if_neg h7]

/-- A one-component state for exercising replay totality. -/
def c10State : CircuitState := ⟨"s", 1, schemaVersionConst, [compA], [], [], 0⟩

/-- A stored document with an unrecognized type tag. -/
def c10UnknownDoc : EventDoc := ⟨"s", 2, "u", 1, "SNAPSHOT_TAKEN", PayloadDoc.empty⟩

theorem apply_event_replay_total_witness :
    (∃ s2, applyEvent c10State 7
        (dump ⟨"s", 2, "u", 1, .wireAdded ⟨"w", "A", "O", "B", "I", []⟩⟩) = .ok s2) ∧
    applyEvent c10State 7 (dump ⟨"s", 2, "u", 1, .componentMoved "Z" ⟨1, 1⟩⟩) =
      .ok { c10State with version := 2, updatedAt := 7 } ∧
    applyEvent c10State 7 (dump ⟨"s", 2, "u", 1, .componentDeleted "Z"⟩) =
      .ok { c10State with version := 2, updatedAt := 7 } ∧
    applyEvent c10State 7 (dump ⟨"s", 2, "u", 1, .wireDeleted "Z"⟩) =
      .ok { c10State with version := 2, updatedAt := 7 } ∧
    applyEvent c10State 7 (dump ⟨"s", 2, "u", 1, .annotDeleted "Z"⟩) =
      .ok { c10State with version := 2, updatedAt := 7 } ∧
    applyEvent c10State 7 c10UnknownDoc = .ok { c10State with updatedAt := 7 } :=
  ⟨(apply_event_replay_total c10State 7 "s" "u" 2 1).1 _,
   (apply_event_replay_total c10State 7 "s" "u" 2 1).2.1 "Z" ⟨1, 1⟩ (by decide),
   (apply_event_replay_total c10State 7 "s" "u" 2 1).2.2.1 "Z" (by decide),
   (apply_event_replay_total c10State 7 "s" "u" 2 1).2.2.2.1 "Z" (by decide),
   (apply_event_replay_total c10State 7 "s" "u" 2 1).2.2.2.2.1 "Z" (by decide),
   (apply_event_replay_total c10State 7 "s" "u" 2 1).2.2.2.2.2 c10UnknownDoc (by decide)⟩

/-! ## C1 amended: the append contract as implemented -/

theorem le_foldl_max_version (l : List EventDoc) (a : Nat) :
    a ≤ l.foldl (fun acc e => max acc e.version) a := by
  induction l generalizing a with
  | nil => exact Nat.le_refl a
  | cons x rest ih =>
      exact Nat.le_trans (Nat.le_max_left a x.version) (ih (max a x.version))

theorem version_le_foldl_max {l : List EventDoc} {e : EventDoc} (he : e ∈ l)
    (a : Nat) : e.version ≤ l.foldl (fun acc e2 => max acc e2.version) a := by
  induction l generalizing a with
  | nil => cases he
  | cons x rest ih =>
      rcases List.mem_cons.mp he with rfl | hmem
      · exact Nat.le_trans (Nat.le_max_right a e.version)
          (le_foldl_max_version rest (max a e.version))
      · exact ih hmem (max a x.version)

/-- C1 amended: the store's append fails (with the unique-index
duplicate-key error, not an application-level Conflict) exactly when an
event with the same `(sessionCode, version)` pair is already stored, leaving
the log unchanged; any event whose pair is unused is accepted and appended,
whether or not its version extends the current head. The service itself
always assigns `latest + 1`, which is strictly greater than every version
already stored for the session. -/
theorem append_event_contract (store : Store) (d : EventDoc) (s : String) :
    ((∃ e ∈ store.events, e.sessionCode = d.sessionCode ∧ e.version = d.version) →
        appendEvent store d = .error .dupKey) ∧
    ((∀ e ∈ store.events, ¬(e.sessionCode = d.sessionCode ∧ e.version = d.version)) →
        appendEvent store d = .ok { store with events := store.events ++ [d] }) ∧
    (∀ e ∈ sessionEvents store s, e.version < getNextVersion store s) := by
  refine ⟨?_, ?_, ?_⟩
  · rintro ⟨e, he, h1, h2⟩
    unfold appendEvent
    rw [if_pos (List.any_eq_true.mpr ⟨e, he, by simp [h1, h2]⟩)]
  · intro h
    unfold appendEvent
    rw [if_neg]
    intro hc
    obtain ⟨e, he, hp⟩ := List.any_eq_true.mp hc
    simp only [Bool.and_eq_true, beq_iff_eq] at hp
    exact h e he hp
  · intro e he
    have hle := version_le_foldl_max he 0
    unfold getNextVersion latestVersion
    omega

theorem append_event_contract_witness :
    appendEvent storeC1 (dump ⟨"s", 2, "u", 9, .componentAdded compA⟩) =
        .error .dupKey ∧
    appendEvent storeC1 (dump ⟨"s", 4, "u", 9, .componentAdded compA⟩) =
        .ok { storeC1 with
                events := storeC1.events ++ [dump ⟨"s", 4, "u", 9, .componentAdded compA⟩] } ∧
    (∀ e ∈ sessionEvents storeC1 "s", e.version < getNextVersion storeC1 "s") :=
  ⟨(append_event_contract storeC1 (dump ⟨"s", 2, "u", 9, .componentAdded compA⟩) "s").1
      (by decide),
   (append_event_contract storeC1 (dump ⟨"s", 4, "u", 9, .componentAdded compA⟩) "s").2.1
      (by decide),
   (append_event_contract storeC1 (dump ⟨"s", 4, "u", 9, .componentAdded compA⟩) "s").2.2⟩

/-! ## C7: undo with an empty stack or an undeterminable inverse -/

/-- C7 amended: undo with an empty undo stack returns `None` and changes
nothing; when the popped event admits no valid inverse, undo returns `None`
with no event appended — the store and the redo stack are untouched — but
the popped event has been removed from the undo stack (it is not restored). -/
theorem undo_nothing_to_undo (now : Nat) (s u : String) (st : ServiceState) :
    (getStack st.undoStacks s u = [] → undo now s u st = (.ok none, st)) ∧
    (∀ lastEv state,
        (getStack st.undoStacks s u).getLast? = some lastEv →
        getCircuitState st.store s now = .ok state →
        createInverseEvent st.store s u now lastEv state = .ok none →
        undo now s u st =
          (.ok none,
            { st with undoStacks := (setStack st.undoStacks s u
                (getStack st.undoStacks s u).dropLast) })) := by
  constructor
  · intro h
    simp [undo, h]
  · intro lastEv state hlast hget hinv
    simp [undo, hlast, hget, hinv]

/-- An event whose target was never added: its inverse cannot be found. -/
def ghostEvent : CircuitEvent := ⟨"s", 1, "u", 0, .componentDeleted "ghost"⟩

/-- A service state whose undo stack holds only the ghost deletion while the
event log is empty (a history inconsistency). -/
def stGhost : ServiceState := ⟨Store.empty, [(("s", "u"), [ghostEvent])], []⟩

theorem undo_nothing_to_undo_witness :
    undo 5 "s" "u" initialService = (.ok none, initialService) ∧
    undo 5 "s" "u" stGhost =
      (.ok none,
        { stGhost with undoStacks := (setStack stGhost.undoStacks "s" "u"
            (getStack stGhost.undoStacks "s" "u").dropLast) }) :=
  ⟨(undo_nothing_to_undo 5 "s" "u" initialService).1 (by decide),
   (undo_nothing_to_undo 5 "s" "u" stGhost).2 ghostEvent (emptyState "s" 5)
      (by decide) (by decide) (by decide)⟩

/-- C7 counterexample: when no inverse can be determined the undo returns
"nothing to undo", but the user's undo stack is not left as it was — the
popped event is discarded. -/
theorem undo_mutates_stack_on_failed_inverse :
    undo 5 "s" "u" stGhost =
        (.ok none, ⟨Store.empty, [(("s", "u"), [])], []⟩) ∧
      (⟨Store.empty, [(("s", "u"), [])], []⟩ : ServiceState).undoStacks ≠
        stGhost.undoStacks := by
  decide

/-! ## C5: add_wire validation order -/

/-- The source pin `add_wire` resolves: first component whose id matches the
wire's source, then its first pin with the source pin id. -/
def findSourcePin (r : CircuitState) (w : Wire) : Option Pin :=
  (r.components.find? (fun c => c.id == w.fromComponentId)).bind
    (fun c => c.pins.find? (fun p => p.id == w.fromPinId))

/-- The target pin `add_wire` resolves. -/
def findTargetPin (r : CircuitState) (w : Wire) : Option Pin :=
  (r.components.find? (fun c => c.id == w.toComponentId)).bind
    (fun c => c.pins.find? (fun p => p.id == w.toPinId))

/-- C5: `add_wire` validates against the reconstructed state in this order —
(a) an identical `(from, to)` pair fails with `DUPLICATE_WIRE`; (b) else an
already-driven target pin fails with `INPUT_ALREADY_CONNECTED`; (c) else a
missing endpoint component or pin fails with `INVALID_WIRE`; (d) else a
non-output source pin or non-input target pin fails with
`INVALID_WIRE_DIRECTION`; and on every failure no event is appended and the
service state is returned unchanged. -/
theorem add_wire_validation_order (now : Nat) (s u : String) (w : Wire)
    (st : ServiceState) (r : CircuitState)
    (hget : getCircuitState st.store s now = .ok r) :
    (r.wires.any (dupWirePred w) = true →
      addWire now s u w st =
        (.error (.validation "This wire connection already exists" "DUPLICATE_WIRE"),
         st)) ∧
    (r.wires.any (dupWirePred w) = false →
     r.wires.any (sameTargetPred w) = true →
      addWire now s u w st =
        (.error (.validation "This input pin already has a connection"
            "INPUT_ALREADY_CONNECTED"), st)) ∧
    (r.wires.any (dupWirePred w) = false →
     r.wires.any (sameTargetPred w) = false →
     (findSourcePin r w = none ∨ findTargetPin r w = none) →
      ∃ m, addWire now s u w st = (.error (.validation m "INVALID_WIRE"), st)) ∧
    (∀ p q : Pin,
     r.wires.any (dupWirePred w) = false →
     r.wires.any (sameTargetPred w) = false →
     findSourcePin r w = some p →
     findTargetPin r w = some q →
     (p.type ≠ PinType.output ∨ q.type ≠ PinType.input) →
      ∃ m, addWire now s u w st =
        (.error (.validation m "INVALID_WIRE_DIRECTION"), st)) := by
  refine ⟨?_, ?_, ?_, ?_⟩
  · intro hdup
    simp [addWire, hget, validateWireConnection, hdup]
  · intro hdup hdrv
    simp [addWire, hget, validateWireConnection, hdup, hdrv]
  · intro hdup hdrv hmiss
    rcases hc1 : r.components.find? (fun c => c.id == w.fromComponentId) with _ | c1
    · exact ⟨"Source component not found",
        by simp [addWire, hget, validateWireConnection, hdup, hdrv, hc1]⟩
    · rcases hp1 : c1.pins.find? (fun p => p.id == w.fromPinId) with _ | p1
      · exact ⟨"Source pin not found",
          by simp [addWire, hget, validateWireConnection, hdup, hdrv, hc1, hp1]⟩
      · rcases hc2 : r.components.find? (fun c => c.id == w.toComponentId) with _ | c2
        · exact ⟨"Target component not found",
            by simp [addWire, hget, validateWireConnection, hdup, hdrv, hc1, hp1, hc2]⟩
        · rcases hp2 : c2.pins.find? (fun p => p.id == w.toPinId) with _ | p2
          · exact ⟨"Target pin not found",
              by simp [addWire, hget, validateWireConnection, hdup, hdrv, hc1, hp1,
                hc2, hp2]⟩
          · exfalso
            rcases hmiss with hm | hm
            · simp [findSourcePin, hc1, hp1] at hm
            · simp [findTargetPin, hc2, hp2] at hm
  · intro p q hdup hdrv hsp htp hdir
    obtain ⟨c1, hc1, hp1⟩ := Option.bind_eq_some.mp hsp
    obtain ⟨c2, hc2, hp2⟩ := Option.bind_eq_some.mp htp
    rcases hdir with hd | hd
    · exact ⟨"Wire must start from an output pin",
        by simp [addWire, hget, validateWireConnection, hdup, hdrv, hc1, hp1, hc2,
          hp2, hd]⟩
    · by_cases hpo : p.type = PinType.output
      · exact ⟨"Wire must end at an input pin",
          by simp [addWire, hget, validateWireConnection, hdup, hdrv, hc1, hp1, hc2,
            hp2, hpo, hd]⟩
      · exact ⟨"Wire must start from an output pin",
          by simp [addWire, hget, validateWireConnection, hdup, hdrv, hc1, hp1, hc2,
            hp2, hpo]⟩

/-- A source component with one output pin. -/
def c5Src : CircuitComponent :=
  ⟨"S", "SWITCH_TOGGLE", ⟨0, 0⟩, 0, Props.empty, [⟨"O", "O", .output, ⟨0, 0⟩⟩]⟩

/-- A target component with one input pin. -/
def c5Dst : CircuitComponent :=
  ⟨"T", "LED_RED", ⟨0, 0⟩, 0, Props.empty, [⟨"I", "I", .input, ⟨0, 0⟩⟩]⟩

/-- The wire already present in the witness circuit. -/
def c5Wire0 : Wire := ⟨"w0", "S", "O", "T", "I", []⟩

/-- Event log containing the two components and the wire. -/
def c5St : ServiceState :=
  ⟨⟨[dump ⟨"s", 1, "u", 0, .componentAdded c5Src⟩,
     dump ⟨"s", 2, "u", 1, .componentAdded c5Dst⟩,
     dump ⟨"s", 3, "u", 2, .wireAdded c5Wire0⟩], []⟩, [], []⟩

/-- The reconstruction of `c5St` at clock 7. -/
def c5R : CircuitState :=
  ⟨"s", 3, schemaVersionConst, [c5Src, c5Dst], [c5Wire0], [], 7⟩

theorem add_wire_validation_order_witness :
    (addWire 7 "s" "u" c5Wire0 c5St =
      (.error (.validation "This wire connection already exists" "DUPLICATE_WIRE"),
       c5St)) ∧
    (addWire 7 "s" "u" ⟨"w2", "S2", "O", "T", "I", []⟩ c5St =
      (.error (.validation "This input pin already has a connection"
          "INPUT_ALREADY_CONNECTED"), c5St)) ∧
    (∃ m, addWire 7 "s" "u" ⟨"w3", "S", "O", "Z", "I", []⟩ c5St =
      (.error (.validation m "INVALID_WIRE"), c5St)) ∧
    (∃ m, addWire 7 "s" "u" ⟨"w4", "T", "I", "S", "O", []⟩ c5St =
      (.error (.validation m "INVALID_WIRE_DIRECTION"), c5St)) :=
  ⟨(add_wire_validation_order 7 "s" "u" c5Wire0 c5St c5R (by decide)).1 (by decide),
   (add_wire_validation_order 7 "s" "u" ⟨"w2", "S2", "O", "T", "I", []⟩ c5St c5R
      (by decide)).2.1 (by decide) (by decide),
   (add_wire_validation_order 7 "s" "u" ⟨"w3", "S", "O", "Z", "I", []⟩ c5St c5R
      (by decide)).2.2.1 (by decide) (by decide) (.inr (by decide)),
   (add_wire_validation_order 7 "s" "u" ⟨"w4", "T", "I", "S", "O", []⟩ c5St c5R
      (by decide)).2.2.2 ⟨"I", "I", .input, ⟨0, 0⟩⟩ ⟨"O", "O", .output, ⟨0, 0⟩⟩
      (by decide) (by decide) (by decide) (by decide) (.inl (by decide))⟩

/-! ## Store invariant

The per-session invariant every service operation maintains: versions are
contiguous from 1, stored documents are well-formed service events, and
every snapshot agrees (observably) with the fold of the first `version`
events from the empty state. -/

/-- The session's stored versions are exactly `1, 2, …, N` in order. -/
def versionsContiguous (store : Store) (s : String) : Prop :=
  (sessionEvents store s).map (fun e => e.version) =
    List.range' 1 (sessionEvents store s).length

/-- A snapshot is consistent: its version is within the log and its state
observably equals the fold of the first `version` session events. -/
def snapOk (store : Store) (s : String) (sn : Snapshot) : Prop :=
  1 ≤ sn.version ∧ sn.version ≤ (sessionEvents store s).length ∧
    (applyEvents 0 (emptyState s 0) ((sessionEvents store s).take sn.version)).map
        obsProj = .ok (obsProj sn.state)

/-- The full per-session store invariant. -/
def SInv (store : Store) (s : String) : Prop :=
  versionsContiguous store s ∧
    (∀ d ∈ sessionEvents store s, serviceDoc d = true) ∧
    (∀ sn ∈ sessionSnapshots store s, snapOk store s sn)

instance (store : Store) (s : String) : Decidable (versionsContiguous store s) := by
  unfold versionsContiguous; infer_instance

instance (store : Store) (s : String) (sn : Snapshot) : Decidable (snapOk store s sn) := by
  unfold snapOk; infer_instance

instance (store : Store) (s : String) : Decidable (SInv store s) := by
  unfold SInv; infer_instance

theorem filter_gt_eq_drop (l : List EventDoc) (k V : Nat)
    (h : l.map (fun e => e.version) = List.range' k l.length) :
    l.filter (fun e => decide (V < e.version)) = l.drop (V + 1 - k) := by
  induction l generalizing k with
  | nil => simp
  | cons e t ih =>
      simp only [List.map_cons, List.length_cons, List.range'_succ] at h
      obtain ⟨hv, ht⟩ := List.cons.inj h
      have hrec := ih (k + 1) ht
      by_cases hVk : V < k
      · have hpe : decide (V < e.version) = true := by
          rw [hv]; exact decide_eq_true hVk
        have h0 : V + 1 - k = 0 := by omega
        have h1 : V + 1 - (k + 1) = 0 := by omega
        rw [h0, List.drop_zero, List.filter_cons, hpe, if_pos rfl]
        rw [h1, List.drop_zero] at hrec
        rw [hrec]
      · have hpe : decide (V < e.version) = false := by
          rw [hv]; exact decide_eq_false hVk
        have h1 : V + 1 - k = (V - k) + 1 := by omega
        have h2 : V + 1 - (k + 1) = V - k := by omega
        rw [List.filter_cons, hpe, if_neg (by simp), h1, List.drop_succ_cons]
        rw [h2] at hrec
        exact hrec

theorem sortByVersion_eq_self (l : List EventDoc)
    (h : l.Pairwise (fun a b => a.version < b.version)) : sortByVersion l = l := by
  induction l with
  | nil => rfl
  | cons x xs ih =>
      simp only [sortByVersion]
      rw [ih h.of_cons]
      cases xs with
      | nil => rfl
      | cons y ys =>
          have hxy : x.version < y.version :=
            (List.pairwise_cons.mp h).1 y (List.mem_cons_self y ys)
          simp only [insertByVersion]
          rw [if_pos hxy]

theorem sessionEvents_pairwise (store : Store) (s : String)
    (h : versionsContiguous store s) :
    (sessionEvents store s).Pairwise (fun a b => a.version < b.version) := by
  have hp : ((sessionEvents store s).map (fun e => e.version)).Pairwise (· < ·) := by
    rw [h]
    exact List.pairwise_lt_range' 1 (sessionEvents store s).length
  exact List.pairwise_map.mp hp

theorem eventsSince_eq_drop (store : Store) (s : String) (V : Nat)
    (h : versionsContiguous store s) :
    eventsSinceVersion store s V = (sessionEvents store s).drop V := by
  unfold eventsSinceVersion
  rw [filter_gt_eq_drop (sessionEvents store s) 1 V h, Nat.add_sub_cancel]
  exact sortByVersion_eq_self _
    (List.Pairwise.sublist (List.drop_sublist V _) (sessionEvents_pairwise store s h))

theorem foldl_max_range_one (k m a : Nat) :
    List.foldl max a (List.range' k (m + 1)) = max a (k + m) := by
  induction m generalizing k a with
  | zero => simp [List.range'_one]
  | succ m ih =>
      rw [List.range'_succ]
      show List.foldl max (max a k) (List.range' (k + 1) (m + 1)) = max a (k + (m + 1))
      rw [ih]
      omega

theorem latestVersion_eq_length (store : Store) (s : String)
    (h : versionsContiguous store s) :
    latestVersion store s = (sessionEvents store s).length := by
  unfold latestVersion
  rw [show ((sessionEvents store s).foldl (fun acc e => max acc e.version) 0 =
      ((sessionEvents store s).map (fun e => e.version)).foldl max 0) from
    (List.foldl_map _ _ _ _).symm]
  rw [h]
  cases hn : (sessionEvents store s).length with
  | zero => rfl
  | succ m => rw [foldl_max_range_one]; omega

theorem applyEventObs_ok_of_wf (o : ObsState) (d : EventDoc)
    (h : wfDoc d = true) : ∃ o2, applyEventObs o d = .ok o2 := by
  unfold applyEventObs
  split_ifs with h1 h2 h3 h4 h5 h6 h7
  · rw [wfDoc, if_pos h1] at h
    obtain ⟨c, hc⟩ := Option.isSome_iff_exists.mp h
    rw [hc]
    exact ⟨_, rfl⟩
  · rw [wfDoc, if_neg h1, if_pos h2] at h
    obtain ⟨pos, hc⟩ := Option.isSome_iff_exists.mp h
    rw [hc]
    exact ⟨_, rfl⟩
  · exact ⟨_, rfl⟩
  · rw [wfDoc, if_neg h1, if_neg h2, if_pos h4] at h
    obtain ⟨w, hc⟩ := Option.isSome_iff_exists.mp h
    rw [hc]
    exact ⟨_, rfl⟩
  · exact ⟨_, rfl⟩
  · rw [wfDoc, if_neg h1, if_neg h2, if_neg h4, if_pos h6] at h
    obtain ⟨a, hc⟩ := Option.isSome_iff_exists.mp h
    rw [hc]
    exact ⟨_, rfl⟩
  · exact ⟨_, rfl⟩
  · exact ⟨_, rfl⟩

theorem applyEventsObs_ok_of_wf (l : List EventDoc) (o : ObsState)
    (h : ∀ d ∈ l, wfDoc d = true) : ∃ o2, applyEventsObs o l = .ok o2 := by
  induction l generalizing o with
  | nil => exact ⟨o, rfl⟩
  | cons d t ih =>
      obtain ⟨o1, ho1⟩ := applyEventObs_ok_of_wf o d (h d (List.mem_cons_self d t))
      obtain ⟨o2, ho2⟩ := ih o1 (fun x hx => h x (List.mem_cons_of_mem d hx))
      exact ⟨o2, by simp only [applyEventsObs, ho1]; exact ho2⟩

theorem applyEventsObs_append (o : ObsState) (l1 l2 : List EventDoc) :
    applyEventsObs o (l1 ++ l2) =
      (applyEventsObs o l1).bind (fun o1 => applyEventsObs o1 l2) := by
  induction l1 generalizing o with
  | nil => rfl
  | cons d t ih =>
      simp only [List.cons_append, applyEventsObs]
      cases applyEventObs o d with
      | error e => rfl
      | ok o1 => exact ih o1

theorem except_map_eq_ok {ε α β : Type} {f : α → β} {x : Except ε α} {b : β}
    (h : x.map f = .ok b) : ∃ a, x = .ok a ∧ f a = b := by
  cases x with
  | error e => simp [Except.map] at h
  | ok a => exact ⟨a, rfl, by simpa [Except.map] using h⟩

theorem latestSnapshot_mem (store : Store) (s : String) (sn : Snapshot)
    (h : latestSnapshot store s = some sn) : sn ∈ sessionSnapshots store s := by
  unfold latestSnapshot at h
  have aux : ∀ (l : List Snapshot) (acc : Option Snapshot) (x : Snapshot),
      l.foldl (fun acc2 sn2 =>
        match acc2 with
        | none => some sn2
        | some a => if a.version < sn2.version then some sn2 else some a) acc = some x →
      x ∈ l ∨ acc = some x := by
    intro l
    induction l with
    | nil => intro acc x hx; exact .inr hx
    | cons y ys ih =>
        intro acc x hx
        rcases ih _ x hx with hmem | hacc
        · exact .inl (List.mem_cons_of_mem y hmem)
        · cases acc with
          | none =>
              dsimp only at hacc
              rw [Option.some.inj hacc]
              exact .inl (List.mem_cons_self x ys)
          | some a =>
              dsimp only at hacc
              by_cases hv : a.version < y.version
              · rw [if_pos hv] at hacc
                rw [Option.some.inj hacc]
                exact .inl (List.mem_cons_self x ys)
              · rw [if_neg hv] at hacc
                exact .inr hacc
  rcases aux (sessionSnapshots store s) none sn h with hmem | hacc
  · exact hmem
  · cases hacc

/-- Under the invariant, reconstruction succeeds and observably equals the
full fold of the session's events from version 0 (§4.1's reconstruction
round-trip, up to the wall-clock field). -/
theorem reconstruct_obs (store : Store) (s : String) (now : Nat)
    (h : SInv store s) :
    ∃ g full, getCircuitState store s now = .ok g ∧
      applyEvents now (emptyState s now) (eventsSinceVersion store s 0) = .ok full ∧
      obsProj g = obsProj full := by
  obtain ⟨h1, h2, h3⟩ := h
  have hwf : ∀ d ∈ sessionEvents store s, wfDoc d = true := by
    intro d hd
    have hsd := h2 d hd
    unfold serviceDoc at hsd
    exact (Bool.and_eq_true_iff.mp hsd).2
  have hes0 : eventsSinceVersion store s 0 = sessionEvents store s := by
    rw [eventsSince_eq_drop store s 0 h1, List.drop_zero]
  obtain ⟨oFull, hoFull⟩ :=
    applyEventsObs_ok_of_wf (sessionEvents store s) (emptyObs s) hwf
  have hmapFull : (applyEvents now (emptyState s now)
      (sessionEvents store s)).map obsProj = .ok oFull := by
    rw [applyEvents_obs]
    exact hoFull
  obtain ⟨full, hfull, hofull⟩ := except_map_eq_ok hmapFull
  cases hsn : latestSnapshot store s with
  | none =>
      refine ⟨full, full, ?_, ?_, rfl⟩
      · unfold getCircuitState
        rw [hsn, hes0]
        exact hfull
      · rw [hes0]
        exact hfull
  | some sn =>
      have hmem := latestSnapshot_mem store s sn hsn
      obtain ⟨hv1, hv2, hsnap⟩ := h3 sn hmem
      have htake : applyEventsObs (emptyObs s)
          ((sessionEvents store s).take sn.version) = .ok (obsProj sn.state) := by
        rw [applyEvents_obs] at hsnap
        exact hsnap
      have hsplit : applyEventsObs (emptyObs s) (sessionEvents store s) =
          applyEventsObs (obsProj sn.state)
            ((sessionEvents store s).drop sn.version) := by
        conv_lhs => rw [← List.take_append_drop sn.version (sessionEvents store s)]
        rw [applyEventsObs_append, htake, except_bind_ok]
      have hget_map : (getCircuitState store s now).map obsProj = .ok oFull := by
        unfold getCircuitState
        rw [hsn, applyEvents_obs, eventsSince_eq_drop store s sn.version h1,
          ← hsplit]
        exact hoFull
      obtain ⟨g, hg, hog⟩ := except_map_eq_ok hget_map
      refine ⟨g, full, hg, by rw [hes0]; exact hfull, ?_⟩
      rw [hog, hofull]

theorem dump_sessionCode (ev : CircuitEvent) :
    (dump ev).sessionCode = ev.sessionCode := by
  cases ev with
  | mk sc v uid ts p => cases p <;> rfl

theorem dump_version (ev : CircuitEvent) : (dump ev).version = ev.version := by
  cases ev with
  | mk sc v uid ts p => cases p <;> rfl

theorem serviceDoc_dump (ev : CircuitEvent) : serviceDoc (dump ev) = true := by
  cases ev with
  | mk sc v uid ts p => cases p <;> rfl

/-- Appending a service event at the next version keeps the invariant and
extends the session log by exactly that event. -/
theorem SInv_append (store : Store) (s : String) (ev : CircuitEvent)
    (h : SInv store s) (hs : ev.sessionCode = s)
    (hv : ev.version = getNextVersion store s) :
    ∃ store2, appendEvent store (dump ev) = .ok store2 ∧ SInv store2 s ∧
      store2.events = store.events ++ [dump ev] ∧
      store2.snapshots = store.snapshots ∧
      sessionEvents store2 s = sessionEvents store s ++ [dump ev] := by
  obtain ⟨h1, h2, h3⟩ := h
  have hlen := latestVersion_eq_length store s h1
  have hdv : (dump ev).version = (sessionEvents store s).length + 1 := by
    rw [dump_version, hv]
    unfold getNextVersion
    rw [hlen]
  have hds : (dump ev).sessionCode = s := by rw [dump_sessionCode, hs]
  have hnodup : ∀ e ∈ store.events,
      ¬(e.sessionCode = (dump ev).sessionCode ∧ e.version = (dump ev).version) := by
    rintro e he ⟨hsc, hvv⟩
    have hmem : e ∈ sessionEvents store s := by
      unfold sessionEvents
      refine List.mem_filter.mpr ⟨he, ?_⟩
      rw [hds] at hsc
      simp [hsc]
    have hvmem : e.version ∈ (sessionEvents store s).map (fun e2 => e2.version) :=
      List.mem_map_of_mem _ hmem
    rw [h1] at hvmem
    have hb := List.mem_range'_1.mp hvmem
    rw [hvv, hdv] at hb
    omega
  have happ : appendEvent store (dump ev) =
      .ok { store with events := store.events ++ [dump ev] } := by
    unfold appendEvent
    rw [if_neg]
    intro hc
    obtain ⟨e, he, hp⟩ := List.any_eq_true.mp hc
    simp only [Bool.and_eq_true, beq_iff_eq] at hp
    exact hnodup e he ⟨hp.1, hp.2⟩
  have hses : sessionEvents { store with events := store.events ++ [dump ev] } s =
      sessionEvents store s ++ [dump ev] := by
    unfold sessionEvents
    rw [List.filter_append]
    congr 1
    simp [hds]
  refine ⟨_, happ, ⟨?_, ?_, ?_⟩, rfl, rfl, hses⟩
  · unfold versionsContiguous
    rw [hses, List.map_append, List.length_append, h1]
    simp only [List.map_cons, List.map_nil, List.length_cons, List.length_nil, hdv]
    rw [List.range'_1_concat]
    simp [Nat.add_comm]
  · intro d hd
    rw [hses] at hd
    rcases List.mem_append.mp hd with hold | hnew
    · exact h2 d hold
    · rw [List.mem_singleton.mp hnew]
      exact serviceDoc_dump ev
  · intro sn hsn
    have hsn0 : sn ∈ sessionSnapshots store s := hsn
    obtain ⟨a1, a2, a3⟩ := h3 sn hsn0
    refine ⟨a1, ?_, ?_⟩
    · rw [hses, List.length_append]
      omega
    · rw [hses, List.take_append_of_le_length a2]
      exact a3

/-- Saving a snapshot of the current reconstruction at the head version
keeps the invariant. -/
theorem SInv_saveSnapshot (store : Store) (s : String) (v now : Nat)
    (state : CircuitState) (h : SInv store s)
    (hok : getCircuitState store s now = .ok state)
    (hv : v = (sessionEvents store s).length) (hv1 : 1 ≤ v) :
    SInv (saveSnapshot store s v state now) s := by
  obtain ⟨h1, h2, h3⟩ := h
  refine ⟨h1, h2, ?_⟩
  intro sn hsn
  have hsplit : sn ∈ sessionSnapshots store s ∨ sn = (⟨s, v, state, now⟩ : Snapshot) := by
    unfold sessionSnapshots saveSnapshot at hsn
    rw [List.filter_append] at hsn
    rcases List.mem_append.mp hsn with ha | hb
    · exact .inl ha
    · right
      have hb2 := List.mem_filter.mp hb
      simpa using hb2.1
  rcases hsplit with hold | hnew
  · exact h3 sn hold
  · subst hnew
    refine ⟨hv1, ?_, ?_⟩
    · show v ≤ (sessionEvents store s).length
      omega
    · show (applyEvents 0 (emptyState s 0)
          ((sessionEvents store s).take v)).map obsProj = .ok (obsProj state)
      rw [hv, List.take_length]
      obtain ⟨g, full, hg, hfull, hof⟩ := reconstruct_obs store s now ⟨h1, h2, h3⟩
      have hsg : state = g := by
        rw [hok] at hg
        exact Except.ok.inj hg
      have hes0 : eventsSinceVersion store s 0 = sessionEvents store s := by
        rw [eventsSince_eq_drop store s 0 h1, List.drop_zero]
      have hmap : (applyEvents 0 (emptyState s 0)
          (sessionEvents store s)).map obsProj =
          (applyEvents now (emptyState s now) (sessionEvents store s)).map obsProj := by
        rw [applyEvents_obs, applyEvents_obs]
        exact rfl
      rw [hmap, ← hes0, hfull]
      show Except.ok (obsProj full) = .ok (obsProj state)
      rw [hsg, hof]

theorem pushUndo_store (s u : String) (ev : CircuitEvent) (st : ServiceState) :
    (pushUndo s u ev st).store = st.store := rfl

theorem clearRedo_store (s u : String) (st : ServiceState) :
    (clearRedo s u st).store = st.store := rfl

theorem foldl_pushUndo_store (s u : String) (evs : List CircuitEvent)
    (st : ServiceState) :
    (evs.foldl (fun acc ev => pushUndo s u ev acc) st).store = st.store := by
  induction evs generalizing st with
  | nil => rfl
  | cons e t ih => rw [List.foldl_cons, ih, pushUndo_store]

theorem moveComponent_SInv (now : Nat) (s u cid : String) (pos : Position)
    (st : ServiceState) (h : SInv st.store s) :
    SInv (moveComponent now s u cid pos st).2.store s := by
  unfold moveComponent
  cases hget : getCircuitState st.store s now with
  | error e => simp only [hget]; exact h
  | ok state =>
      simp only [hget]
      by_cases hex : state.components.any (fun c => c.id == cid) = true
      · rw [if_pos hex]
        obtain ⟨store2, happ, hS2, _, _, _⟩ :=
          SInv_append st.store s
            ⟨s, getNextVersion st.store s, u, now, .componentMoved cid pos⟩ h rfl rfl
        simp only [happ, clearRedo_store, pushUndo_store]
        cases hget2 : getCircuitState store2 s now with
        | error e2 => simp only [hget2, clearRedo_store, pushUndo_store]; exact hS2
        | ok s2 => simp only [hget2, clearRedo_store, pushUndo_store]; exact hS2
      · rw [if_neg hex]
        exact h

theorem addWire_SInv (now : Nat) (s u : String) (w : Wire)
    (st : ServiceState) (h : SInv st.store s) :
    SInv (addWire now s u w st).2.store s := by
  unfold addWire
  cases hget : getCircuitState st.store s now with
  | error e => simp only [hget]; exact h
  | ok state =>
      simp only [hget]
      cases hval : validateWireConnection state w with
      | some err => simp only [hval]; exact h
      | none =>
          simp only [hval]
          obtain ⟨store2, happ, hS2, _, _, _⟩ :=
            SInv_append st.store s
              ⟨s, getNextVersion st.store s, u, now, .wireAdded w⟩ h rfl rfl
          simp only [happ, clearRedo_store, pushUndo_store]
          cases hget2 : getCircuitState store2 s now with
          | error e2 => simp only [hget2, clearRedo_store, pushUndo_store]; exact hS2
          | ok s2 => simp only [hget2, clearRedo_store, pushUndo_store]; exact hS2

theorem deleteWire_SInv (now : Nat) (s u wid : String)
    (st : ServiceState) (h : SInv st.store s) :
    SInv (deleteWire now s u wid st).2.store s := by
  unfold deleteWire
  cases hget : getCircuitState st.store s now with
  | error e => simp only [hget]; exact h
  | ok state =>
      simp only [hget]
      by_cases hex : state.wires.any (fun w => w.id == wid) = true
      · rw [if_pos hex]
        obtain ⟨store2, happ, hS2, _, _, _⟩ :=
          SInv_append st.store s
            ⟨s, getNextVersion st.store s, u, now, .wireDeleted wid⟩ h rfl rfl
        simp only [happ, clearRedo_store, pushUndo_store]
        cases hget2 : getCircuitState store2 s now with
        | error e2 => simp only [hget2, clearRedo_store, pushUndo_store]; exact hS2
        | ok s2 => simp only [hget2, clearRedo_store, pushUndo_store]; exact hS2
      · rw [if_neg hex]
        exact h

theorem addAnnot_SInv (now : Nat) (s u : String) (a : Annot)
    (st : ServiceState) (h : SInv st.store s) :
    SInv (addAnnot now s u a st).2.store s := by
  unfold addAnnot
  obtain ⟨store2, happ, hS2, _, _, _⟩ :=
    SInv_append st.store s
      ⟨s, getNextVersion st.store s, u, now, .annotAdded a⟩ h rfl rfl
  simp only [happ, clearRedo_store, pushUndo_store]
  cases hget2 : getCircuitState store2 s now with
  | error e2 => simp only [hget2, clearRedo_store, pushUndo_store]; exact hS2
  | ok s2 => simp only [hget2, clearRedo_store, pushUndo_store]; exact hS2

theorem deleteAnnot_SInv (now : Nat) (s u aid : String)
    (st : ServiceState) (h : SInv st.store s) :
    SInv (deleteAnnot now s u aid st).2.store s := by
  unfold deleteAnnot
  cases hget : getCircuitState st.store s now with
  | error e => simp only [hget]; exact h
  | ok state =>
      simp only [hget]
      by_cases hex : state.annotations.any (fun a => a.id == aid) = true
      · rw [if_pos hex]
        obtain ⟨store2, happ, hS2, _, _, _⟩ :=
          SInv_append st.store s
            ⟨s, getNextVersion st.store s, u, now, .annotDeleted aid⟩ h rfl rfl
        simp only [happ, clearRedo_store, pushUndo_store]
        cases hget2 : getCircuitState store2 s now with
        | error e2 => simp only [hget2, clearRedo_store, pushUndo_store]; exact hS2
        | ok s2 => simp only [hget2, clearRedo_store, pushUndo_store]; exact hS2
      · rw [if_neg hex]
        exact h

/-- The `WireDeleted` events the cascade loop of `delete_component` emits:
one per connected wire, at consecutive versions starting from `v0`. -/
def expectedWireEvents (now : Nat) (s u : String) :
    List Wire → Nat → List CircuitEvent
  | [], _ => []
  | w :: rest, v0 =>
      ⟨s, v0, u, now, .wireDeleted w.id⟩ :: expectedWireEvents now s u rest (v0 + 1)

theorem expectedWireEvents_payloads (now : Nat) (s u : String) (ws : List Wire)
    (v0 : Nat) :
    (expectedWireEvents now s u ws v0).map (fun e => e.payload) =
      ws.map (fun w => EventPayload.wireDeleted w.id) := by
  induction ws generalizing v0 with
  | nil => rfl
  | cons w rest ih => simp [expectedWireEvents, ih]

theorem expectedWireEvents_versions (now : Nat) (s u : String) (ws : List Wire)
    (v0 : Nat) :
    (expectedWireEvents now s u ws v0).map (fun e => e.version) =
      List.range' v0 ws.length := by
  induction ws generalizing v0 with
  | nil => rfl
  | cons w rest ih => simp [expectedWireEvents, List.range'_succ, ih]

theorem expectedWireEvents_length (now : Nat) (s u : String) (ws : List Wire)
    (v0 : Nat) : (expectedWireEvents now s u ws v0).length = ws.length := by
  have h := congrArg List.length (expectedWireEvents_versions now s u ws v0)
  simpa using h

/-- The cascade loop appends exactly the expected wire-deletion events, in
order, preserving the invariant. -/
theorem deleteWiresLoop_spec (now : Nat) (s u : String) (ws : List Wire)
    (store : Store) (h : SInv store s) :
    ∃ store2,
      deleteWiresLoop now s u ws store =
        (.ok (expectedWireEvents now s u ws (getNextVersion store s)), store2) ∧
      SInv store2 s ∧
      sessionEvents store2 s =
        sessionEvents store s ++
          (expectedWireEvents now s u ws (getNextVersion store s)).map dump ∧
      store2.snapshots = store.snapshots := by
  induction ws generalizing store with
  | nil => exact ⟨store, rfl, h, by simp [expectedWireEvents], rfl⟩
  | cons w rest ih =>
      obtain ⟨store1, happ, hS1, he1, hsn1, hses1⟩ :=
        SInv_append store s
          ⟨s, getNextVersion store s, u, now, .wireDeleted w.id⟩ h rfl rfl
      obtain ⟨store2, hloop, hS2, hses2, hsnap2⟩ := ih store1 hS1
      have hnext : getNextVersion store1 s = getNextVersion store s + 1 := by
        unfold getNextVersion
        rw [latestVersion_eq_length store1 s hS1.1, hses1, List.length_append,
          latestVersion_eq_length store s h.1]
        simp
      refine ⟨store2, ?_, hS2, ?_, ?_⟩
      · simp only [deleteWiresLoop, happ, hloop, hnext, expectedWireEvents]
      · rw [hses2, hses1, hnext]
        simp [expectedWireEvents, List.append_assoc]
      · rw [hsnap2, hsn1]

theorem deleteComponent_SInv (now : Nat) (s u cid : String)
    (st : ServiceState) (h : SInv st.store s) :
    SInv (deleteComponent now s u cid st).2.store s := by
  unfold deleteComponent
  cases hget : getCircuitState st.store s now with
  | error e => simp only [hget]; exact h
  | ok state =>
      simp only [hget]
      by_cases hex : state.components.any (fun c => c.id == cid) = true
      · rw [if_pos hex]
        obtain ⟨store1, hloop, hS1, hses1, hsnap1⟩ :=
          deleteWiresLoop_spec now s u
            (state.wires.filter
              (fun w => w.fromComponentId == cid || w.toComponentId == cid))
            st.store h
        simp only [hloop]
        obtain ⟨store2, happ, hS2, _, _, _⟩ :=
          SInv_append store1 s
            ⟨s, getNextVersion store1 s, u, now, .componentDeleted cid⟩ hS1 rfl rfl
        simp only [happ, clearRedo_store, foldl_pushUndo_store]
        cases hget2 : getCircuitState store2 s now with
        | error e2 =>
            simp only [hget2, clearRedo_store, foldl_pushUndo_store]
            exact hS2
        | ok s2 =>
            simp only [hget2, clearRedo_store, foldl_pushUndo_store]
            exact hS2
      · rw [if_neg hex]
        exact h

theorem addComponent_SInv (now : Nat) (s u : String) (comp : CircuitComponent)
    (st : ServiceState) (h : SInv st.store s) :
    SInv (addComponent now s u comp st).2.store s := by
  unfold addComponent
  obtain ⟨store2, happ, hS2, he2, hsn2, hses2⟩ :=
    SInv_append st.store s
      ⟨s, getNextVersion st.store s, u, now, .componentAdded comp⟩ h rfl rfl
  simp only [happ, clearRedo_store, pushUndo_store]
  unfold maybeCreateSnapshot
  simp only [clearRedo_store, pushUndo_store]
  by_cases hmod : getNextVersion st.store s % snapshotInterval = 0
  · rw [if_pos hmod]
    obtain ⟨g, full, hg, hfull, hof⟩ := reconstruct_obs store2 s now hS2
    simp only [hg]
    have hS3 : SInv (saveSnapshot store2 s (getNextVersion st.store s) g now) s := by
      refine SInv_saveSnapshot store2 s (getNextVersion st.store s) now g hS2 hg ?_ ?_
      · rw [hses2, List.length_append]
        unfold getNextVersion
        rw [latestVersion_eq_length st.store s h.1]
        simp
      · unfold getNextVersion
        omega
    cases hget2 : getCircuitState
        (saveSnapshot store2 s (getNextVersion st.store s) g now) s now with
    | error e2 =>
        simp only [hget2, clearRedo_store, pushUndo_store]
        exact hS3
    | ok s2 =>
        simp only [hget2, clearRedo_store, pushUndo_store]
        exact hS3
  · rw [if_neg hmod]
    cases hget2 : getCircuitState store2 s now with
    | error e2 =>
        simp only [hget2, clearRedo_store, pushUndo_store]
        exact hS2
    | ok s2 =>
        simp only [hget2, clearRedo_store, pushUndo_store]
        exact hS2

theorem execCommand_SInv (s u : String) (st : ServiceState)
    (nc : Nat × Command) (h : SInv st.store s) :
    SInv (execCommand s u st nc).store s := by
  obtain ⟨now, c⟩ := nc
  cases c with
  | addComponent comp => exact addComponent_SInv now s u comp st h
  | moveComponent cid pos => exact moveComponent_SInv now s u cid pos st h
  | deleteComponent cid => exact deleteComponent_SInv now s u cid st h
  | addWire w => exact addWire_SInv now s u w st h
  | deleteWire wid => exact deleteWire_SInv now s u wid st h
  | addAnnot a => exact addAnnot_SInv now s u a st h
  | deleteAnnot aid => exact deleteAnnot_SInv now s u aid st h

theorem SInv_initial (s : String) : SInv Store.empty s := by
  refine ⟨rfl, ?_, ?_⟩
  · intro d hd
    simp [sessionEvents, Store.empty] at hd
  · intro sn hsn
    simp [sessionSnapshots, Store.empty] at hsn

theorem runCommands_SInv (s u : String) (cmds : List (Nat × Command))
    (st : ServiceState) (h : SInv st.store s) :
    SInv (runCommands s u cmds st).store s := by
  induction cmds generalizing st with
  | nil => exact h
  | cons nc rest ih =>
      show SInv (runCommands s u rest (execCommand s u st nc)).store s
      exact ih (execCommand s u st nc) (execCommand_SInv s u st nc h)

/-- C2 amended: for any sequence of timestamped mutation commands run from a
fresh service, the snapshot-based reconstruction succeeds and agrees with
the fold of all events from version 0 on every field except the
`updatedAt` wall-clock stamp: snapshotting never changes the observable
reconstructed state up to that timestamp. -/
theorem snapshot_roundtrip_observable (s u : String)
    (cmds : List (Nat × Command)) (now : Nat) :
    ∃ g full,
      getCircuitState (runCommands s u cmds initialService).store s now = .ok g ∧
      applyEvents now (emptyState s now)
          (eventsSinceVersion (runCommands s u cmds initialService).store s 0) =
        .ok full ∧
      obsProj g = obsProj full :=
  reconstruct_obs _ s now
    (runCommands_SInv s u cmds initialService (SInv_initial s))

/-- Fifty `addComponent` commands at clocks `0, 1, …, 49`: enough to cross
the 50-event snapshot interval. -/
def c2Cmds : List (Nat × Command) :=
  (List.range 50).map (fun i => (i, Command.addComponent compA))

/-- The service state after running the fifty commands. -/
def c2Final : ServiceState := runCommands "s" "u" c2Cmds initialService

set_option maxRecDepth 100000 in
/-- C2 counterexample: after fifty commands a snapshot exists at version 50;
reconstructing at a later wall-clock instant from that snapshot does not
equal the fold of all events from version 0 — the two `CircuitState` values
differ (in the `updatedAt` stamp), so the claimed exact equality fails. -/
theorem snapshot_roundtrip_not_exact :
    getCircuitState c2Final.store "s" 1000 ≠
      applyEvents 1000 (emptyState "s" 1000)
        (eventsSinceVersion c2Final.store "s" 0) := by
  decide

/-! ## C6: delete_component cascade -/

theorem applyEventObs_wireDeleted (o : ObsState) (sc uid : String) (v ts : Nat)
    (wid : String) :
    applyEventObs o (dump ⟨sc, v, uid, ts, .wireDeleted wid⟩) =
      .ok { o with
              wires := o.wires.filter (fun w2 => !(decide (some w2.id = some wid))),
              version := v } := rfl

theorem applyObs_wire_deletes (now : Nat) (s u : String) (ws : List Wire)
    (v0 : Nat) (o : ObsState) :
    ∃ o2, applyEventsObs o ((expectedWireEvents now s u ws v0).map dump) = .ok o2 ∧
      o2.components = o.components ∧
      o2.annotations = o.annotations ∧
      (∀ w2 ∈ o2.wires, w2 ∈ o.wires ∧ ∀ w ∈ ws, w2.id ≠ w.id) := by
  induction ws generalizing o v0 with
  | nil =>
      refine ⟨o, rfl, rfl, rfl, ?_⟩
      intro w2 hw2
      exact ⟨hw2, fun w hw => absurd hw (List.not_mem_nil w)⟩
  | cons w rest ih =>
      obtain ⟨o2, hfold, hcomp, hann, hwires⟩ :=
        ih (v0 + 1)
          { o with
            wires := o.wires.filter (fun w2 => !(decide (some w2.id = some w.id))),
            version := v0 }
      refine ⟨o2, ?_, ?_, ?_, ?_⟩
      · simp only [expectedWireEvents, List.map_cons, applyEventsObs,
          applyEventObs_wireDeleted]
        exact hfold
      · exact hcomp
      · exact hann
      · intro w2 hw2
        obtain ⟨hmem1, hrest⟩ := hwires w2 hw2
        have hmem0 := List.mem_filter.mp hmem1
        refine ⟨hmem0.1, ?_⟩
        intro wx hwx
        rcases List.mem_cons.mp hwx with rfl | hx
        · have hp := hmem0.2
          simpa using hp
        · exact hrest wx hx

/-- C6: deleting a component with K touching wires emits exactly K
`WireDeleted` events — one per touching wire, in order, at consecutive fresh
versions — followed by exactly one `ComponentDeleted` event, and the freshly
reconstructed state contains neither the component nor any of those wires. -/
theorem delete_component_cascade (now : Nat) (s u cid : String)
    (st : ServiceState) (r : CircuitState)
    (h : SInv st.store s)
    (hget : getCircuitState st.store s now = .ok r)
    (hmem : r.components.any (fun c => c.id == cid) = true) :
    ∃ evs state2 st2,
      deleteComponent now s u cid st = (.ok (evs, state2), st2) ∧
      evs.map (fun e => e.payload) =
        (r.wires.filter
            (fun w => w.fromComponentId == cid || w.toComponentId == cid)).map
          (fun w => EventPayload.wireDeleted w.id) ++
          [EventPayload.componentDeleted cid] ∧
      evs.map (fun e => e.version) =
        List.range' (getNextVersion st.store s)
          ((r.wires.filter
              (fun w => w.fromComponentId == cid || w.toComponentId == cid)).length
            + 1) ∧
      (∀ c ∈ state2.components, c.id ≠ cid) ∧
      (∀ w2 ∈ state2.wires,
        w2.id ∉ (r.wires.filter
            (fun w => w.fromComponentId == cid || w.toComponentId == cid)).map
          (fun w => w.id)) := by
  unfold deleteComponent
  simp only [hget]
  rw [if_pos hmem]
  obtain ⟨store1, hloop, hS1, hses1, hsnap1⟩ :=
    deleteWiresLoop_spec now s u
      (r.wires.filter (fun w => w.fromComponentId == cid || w.toComponentId == cid))
      st.store h
  simp only [hloop]
  obtain ⟨store2, happ, hS2, he2, hsn2, hses2⟩ :=
    SInv_append store1 s
      ⟨s, getNextVersion store1 s, u, now, .componentDeleted cid⟩ hS1 rfl rfl
  simp only [happ, clearRedo_store, foldl_pushUndo_store]
  obtain ⟨g, full, hg, hfull, hof⟩ := reconstruct_obs store2 s now hS2
  simp only [hg]
  have hnext1 : getNextVersion store1 s =
      getNextVersion st.store s +
        (r.wires.filter
          (fun w => w.fromComponentId == cid || w.toComponentId == cid)).length := by
    unfold getNextVersion
    rw [latestVersion_eq_length store1 s hS1.1, hses1, List.length_append,
      List.length_map, expectedWireEvents_length,
      latestVersion_eq_length st.store s h.1]
    omega
  obtain ⟨g0, full0, hg0, hfull0, hof0⟩ := reconstruct_obs st.store s now h
  have hg0r : g0 = r := by
    rw [hget] at hg0
    exact (Except.ok.inj hg0).symm
  have hes0old : eventsSinceVersion st.store s 0 = sessionEvents st.store s := by
    rw [eventsSince_eq_drop st.store s 0 h.1, List.drop_zero]
  have holdfold : applyEventsObs (obsProj (emptyState s now))
      (sessionEvents st.store s) = .ok (obsProj r) := by
    rw [← applyEvents_obs, ← hes0old, hfull0]
    show Except.ok (obsProj full0) = Except.ok (obsProj r)
    rw [← hof0, hg0r]
  obtain ⟨o2, hwfold, hcomp2, hann2, hwires2⟩ :=
    applyObs_wire_deletes now s u
      (r.wires.filter (fun w => w.fromComponentId == cid || w.toComponentId == cid))
      (getNextVersion st.store s) (obsProj r)
  have hlast : applyEventsObs o2
      [dump ⟨s, getNextVersion store1 s, u, now, .componentDeleted cid⟩] =
      .ok { o2 with
              components :=
                o2.components.filter (fun c => !(decide (some c.id = some cid))),
              version := getNextVersion store1 s } := rfl
  have hfullobs : (applyEvents now (emptyState s now)
      (eventsSinceVersion store2 s 0)).map obsProj =
      .ok { o2 with
              components :=
                o2.components.filter (fun c => !(decide (some c.id = some cid))),
              version := getNextVersion store1 s } := by
    rw [applyEvents_obs, eventsSince_eq_drop store2 s 0 hS2.1, List.drop_zero,
      hses2, hses1, applyEventsObs_append, applyEventsObs_append, holdfold,
      except_bind_ok, hwfold, except_bind_ok, hlast]
  have hofull3 : obsProj full =
      { o2 with
          components :=
            o2.components.filter (fun c => !(decide (some c.id = some cid))),
          version := getNextVersion store1 s } := by
    rw [hfull] at hfullobs
    exact Except.ok.inj hfullobs
  have hobs_g : obsProj g =
      { o2 with
          components :=
            o2.components.filter (fun c => !(decide (some c.id = some cid))),
          version := getNextVersion store1 s } := by
    rw [hof, hofull3]
  have hgc : g.components =
      o2.components.filter (fun c => !(decide (some c.id = some cid))) :=
    congrArg ObsState.components hobs_g
  have hgw : g.wires = o2.wires := congrArg ObsState.wires hobs_g
  refine ⟨_, g, _, rfl, ?_, ?_, ?_, ?_⟩
  · rw [List.map_append, expectedWireEvents_payloads]
    rfl
  · rw [List.map_append, expectedWireEvents_versions]
    show List.range' (getNextVersion st.store s) _ ++ [getNextVersion store1 s] = _
    rw [hnext1, ← List.range'_1_concat]
  · intro c hc
    rw [hgc] at hc
    have hp := (List.mem_filter.mp hc).2
    simpa using hp
  · intro w2 hw2
    rw [hgw] at hw2
    obtain ⟨_, hids⟩ := hwires2 w2 hw2
    intro hmm
    obtain ⟨w, hwmem, hwid⟩ := List.mem_map.mp hmm
    exact hids w hwmem hwid.symm

theorem delete_component_cascade_witness :
    ∃ evs state2 st2,
      deleteComponent 7 "s" "u" "S" c5St = (.ok (evs, state2), st2) ∧
      evs.map (fun e => e.payload) =
        (c5R.wires.filter
            (fun w => w.fromComponentId == "S" || w.toComponentId == "S")).map
          (fun w => EventPayload.wireDeleted w.id) ++
          [EventPayload.componentDeleted "S"] ∧
      evs.map (fun e => e.version) =
        List.range' (getNextVersion c5St.store "s")
          ((c5R.wires.filter
              (fun w => w.fromComponentId == "S" || w.toComponentId == "S")).length
            + 1) ∧
      (∀ c ∈ state2.components, c.id ≠ "S") ∧
      (∀ w2 ∈ state2.wires,
        w2.id ∉ (c5R.wires.filter
            (fun w => w.fromComponentId == "S" || w.toComponentId == "S")).map
          (fun w => w.id)) :=
  delete_component_cascade 7 "s" "u" "S" c5St c5R (by decide) (by decide) (by decide)

end CircuitForge
